import Mathlib

/-!
Verification of the AIF resume-analysis core (backend/app/models/ats_scorer.py,
resume_parser.py, optimizer.py and backend/app/utils/nlp_utils.py).

Texts are modelled as `List Char` (Python `str`, ASCII inputs); scores are
modelled as `ℚ` (Python floats; all values handled here are small decimal
fractions, where float rounding cannot affect the stated properties).
Python regular-expression operations over the fixed patterns of the source
are modelled by dedicated scanning functions that reproduce `re`'s
left-to-right non-overlapping matching, `\b` word boundaries and the
lowercasing the source applies before matching.
-/

namespace AIF

/-- Shorthand: the character list of a string literal. -/
def strL (s : String) : List Char := s.data

/-- Python `\w` (ASCII range, as used on the ASCII texts of this model). -/
def isWordC (c : Char) : Bool := c.isAlphanum || c = '_'

/-- Python `\s` / `str.isspace` for the ASCII whitespace characters. -/
def isSpaceC (c : Char) : Bool :=
  c = ' ' || c = '\t' || c = '\n' || c = '\r' || c.toNat = 11 || c.toNat = 12

def isAlphaC (c : Char) : Bool := c.isAlpha

def isDigitC (c : Char) : Bool := c.isDigit

/-- Python `str.lower`, character by character (ASCII). -/
def toLowerL (s : List Char) : List Char := s.map Char.toLower

/-- Does `pat` occur at the head of `s`? -/
def startsWithL : List Char → List Char → Bool
  | [], _ => true
  | _ :: _, [] => false
  | p :: ps, c :: cs => p = c && startsWithL ps cs

/-- Index of the first occurrence of `pat` in `s` (Python `str.find` ≥ 0 cases). -/
def firstIdxOfSub (pat : List Char) : List Char → Option Nat
  | [] => if pat.isEmpty then some 0 else none
  | c :: rest =>
    if startsWithL pat (c :: rest) then some 0
    else (firstIdxOfSub pat rest).map (· + 1)

/-- Python `pat in s` (substring containment). -/
def containsSubL (pat s : List Char) : Bool := (firstIdxOfSub pat s).isSome

/-- Python `str.strip()` (no argument: strips whitespace at both ends). -/
def stripL (s : List Char) : List Char :=
  ((s.dropWhile isSpaceC).reverse.dropWhile isSpaceC).reverse

/-- Python `str.capitalize()`: first character uppercased, the rest lowercased. -/
def capitalizeL : List Char → List Char
  | [] => []
  | c :: rest => c.toUpper :: rest.map Char.toLower

/-- Python `str.title()`: a letter is uppercased when the previous character is
not a letter, lowercased otherwise (`prev` records whether it was a letter). -/
def titleAux : Bool → List Char → List Char
  | _, [] => []
  | prev, c :: rest =>
    (if c.isAlpha then (if prev then c.toLower else c.toUpper) else c)
      :: titleAux c.isAlpha rest

def titleL (s : List Char) : List Char := titleAux false s

/-- Python `str.split('\n')`: split at every newline, keeping empty pieces. -/
def splitOnNl : List Char → List (List Char)
  | [] => [[]]
  | '\n' :: rest => [] :: splitOnNl rest
  | c :: rest =>
    match splitOnNl rest with
    | l :: ls => (c :: l) :: ls
    | [] => [[c]]

/-- Python `str.split()` (no argument): whitespace-separated tokens, no empties. -/
def splitWsAux : List Char → List Char → List (List Char)
  | [], acc => if acc.isEmpty then [] else [acc.reverse]
  | c :: rest, acc =>
    if isSpaceC c then
      if acc.isEmpty then splitWsAux rest [] else acc.reverse :: splitWsAux rest []
    else splitWsAux rest (c :: acc)

def splitWsL (s : List Char) : List (List Char) := splitWsAux s []

def isSentSepC (c : Char) : Bool := c = '.' || c = '!' || c = '?'

/-- Python `re.split(r'[.!?]+', text)`: pieces between maximal runs of `.!?`
(empty pieces at the ends included).  `inSep` records whether the previous
character belonged to a separator run. -/
def splitSentAux : List Char → List Char → Bool → List (List Char)
  | [], acc, _ => [acc.reverse]
  | c :: rest, acc, inSep =>
    if isSentSepC c then
      if inSep then splitSentAux rest acc true
      else acc.reverse :: splitSentAux rest [] true
    else splitSentAux rest (c :: acc) false

def splitSentL (s : List Char) : List (List Char) := splitSentAux s [] false

/-- Join pieces with a separator (Python `sep.join(pieces)`). -/
def joinSep (sep : List Char) : List (List Char) → List Char
  | [] => []
  | [x] => x
  | x :: xs => x ++ sep ++ joinSep sep xs

def joinNl : List (List Char) → List Char := joinSep (strL "\n")

/-- Python `re.sub(pat, rep, s)` for a literal pattern `pat`: every
non-overlapping occurrence, scanned left to right, is replaced.  The scan
consumes one character per step; `skip > 0` means the character still belongs
to an occurrence already replaced. -/
def replaceAllAux (pat rep : List Char) : Nat → List Char → List Char
  | _, [] => []
  | skip + 1, _ :: rest => replaceAllAux pat rep skip rest
  | 0, c :: rest =>
    if !pat.isEmpty && startsWithL pat (c :: rest) then
      rep ++ replaceAllAux pat rep (pat.length - 1) rest
    else
      c :: replaceAllAux pat rep 0 rest

def replaceAllL (pat rep s : List Char) : List Char := replaceAllAux pat rep 0 s

/-- Maximal runs of word characters of a text, in order (used to model
`re.findall(r'\b[a-zA-Z]{4,}\b', ·)`, see `extract_keywords`). -/
def wordRunsAux : List Char → List Char → List (List Char)
  | [], acc => if acc.isEmpty then [] else [acc.reverse]
  | c :: rest, acc =>
    if isWordC c then wordRunsAux rest (c :: acc)
    else if acc.isEmpty then wordRunsAux rest []
    else acc.reverse :: wordRunsAux rest []

def wordRuns (s : List Char) : List (List Char) := wordRunsAux s []

/-- Word-character status of an optional character (`none` = text edge). -/
def optWord : Option Char → Bool
  | none => false
  | some c => isWordC c

/-- Is there a `\b` word boundary between adjacent characters `a` and `b`? -/
def wbAt (a b : Option Char) : Bool := optWord a != optWord b

/-- First alternative of `alts` matching at the head of `s` in the pattern
`\b(alt1|alt2|...)\b`, `prev` being the character just before `s`. -/
def altAt (alts : List (List Char)) (prev : Option Char) (s : List Char) :
    Option (List Char) :=
  alts.findSome? fun w =>
    if startsWithL w s && wbAt prev s.head? &&
        wbAt w.getLast? ((s.drop w.length).head?) then
      some w
    else none

/-- All matches of `re.finditer(r'\b(alt1|...)\b', s)`, scanned left to right,
non-overlapping, alternatives tried in order at each position.  The scan
consumes one character per step; `skip > 0` means the character still belongs
to a match already reported. -/
def scanWBAux (alts : List (List Char)) : Nat → Option Char → List Char → List (List Char)
  | _, _, [] => []
  | skip + 1, _, c :: rest => scanWBAux alts skip (some c) rest
  | 0, prev, c :: rest =>
    match altAt alts prev (c :: rest) with
    | some w => w :: scanWBAux alts (w.length - 1) (some c) rest
    | none => scanWBAux alts 0 (some c) rest

def scanWB (alts : List (List Char)) (prev : Option Char) (s : List Char) :
    List (List Char) := scanWBAux alts 0 prev s

/-- Number of matches of `re.findall('\\b' + w + '\\s', s)`: the literal word
`w` at a word boundary followed by one whitespace character, non-overlapping
(`skip` as in `scanWBAux`). -/
def countBWordWsAux (w : List Char) : Nat → Option Char → List Char → Nat
  | _, _, [] => 0
  | skip + 1, _, c :: rest => countBWordWsAux w skip (some c) rest
  | 0, prev, c :: rest =>
    if wbAt prev (some c) && startsWithL w (c :: rest) then
      match ((c :: rest).drop w.length).head? with
      | some d =>
        if isSpaceC d then 1 + countBWordWsAux w w.length (some c) rest
        else countBWordWsAux w 0 (some c) rest
      | none => countBWordWsAux w 0 (some c) rest
    else countBWordWsAux w 0 (some c) rest

def countBWordWs (w : List Char) (prev : Option Char) (s : List Char) : Nat :=
  countBWordWsAux w 0 prev s

/-- Source: `\d+` then `%` (`endPercent = true`) or bare `\d+`: length consumed, if the
regex tail matches here.  Backtracking over `\d+` cannot help for these
patterns, so maximal-munch is faithful. -/
def digitsThen (endPercent : Bool) (s : List Char) : Option Nat :=
  let ds := s.takeWhile isDigitC
  if ds.isEmpty then none
  else if endPercent then
    match (s.drop ds.length).head? with
    | some '%' => some (ds.length + 1)
    | _ => none
  else some ds.length

/-- Number of matches of `re.findall(lit + '\\d+' (+ '%'), s)`,
non-overlapping, scanned left to right (`lit` is a nonempty literal;
`skip` as in `scanWBAux`). -/
def countLitDAux (lit : List Char) (endPercent : Bool) : Nat → List Char → Nat
  | _, [] => 0
  | skip + 1, _ :: rest => countLitDAux lit endPercent skip rest
  | 0, c :: rest =>
    if startsWithL lit (c :: rest) then
      match digitsThen endPercent ((c :: rest).drop lit.length) with
      | some k => 1 + countLitDAux lit endPercent (lit.length + k - 1) rest
      | none => countLitDAux lit endPercent 0 rest
    else countLitDAux lit endPercent 0 rest

def countLitD (lit : List Char) (endPercent : Bool) (s : List Char) : Nat :=
  countLitDAux lit endPercent 0 s

/-! ## Rounding

Python `round(x, 1)` (round half to even, at one decimal place), modelled on
exact rationals. -/

/-- Python `min(a, b)` on exact rationals (kernel-computable; equal to
Mathlib's `min`, see `pymin_eq_min`). -/
def pymin (a b : ℚ) : ℚ := if a ≤ b then a else b

/-- Python `max(a, b)` on exact rationals (kernel-computable; equal to
Mathlib's `max`, see `pymax_eq_max`). -/
def pymax (a b : ℚ) : ℚ := if a ≤ b then b else a

theorem pymin_eq_min (a b : ℚ) : pymin a b = min a b := by
  unfold pymin
  split_ifs with h
  · exact (min_eq_left h).symm
  · exact (min_eq_right (le_of_not_le h)).symm

theorem pymax_eq_max (a b : ℚ) : pymax a b = max a b := by
  unfold pymax
  split_ifs with h
  · exact (max_eq_right h).symm
  · exact (max_eq_left (le_of_not_le h)).symm

/-- Round a rational to the nearest integer, half to even
(`Rat.floor` is the kernel-computable floor; `Rat.floor_def'` equates it
with `⌊·⌋`). -/
def roundHE (q : ℚ) : ℤ :=
  if q - Rat.floor q < 1 / 2 then Rat.floor q
  else if 1 / 2 < q - Rat.floor q then Rat.floor q + 1
  else if Rat.floor q % 2 = 0 then Rat.floor q else Rat.floor q + 1

theorem ratFloor_eq_floor (q : ℚ) : Rat.floor q = ⌊q⌋ :=
  (Rat.floor_def' q).trans Rat.floor_def.symm

/-- Python `round(x, 1)`. -/
def pythonRound1 (x : ℚ) : ℚ := (roundHE (x * 10) : ℚ) / 10

/-! ## ATSScorer (backend/app/models/ats_scorer.py)

`parsed_data` enters the scorer as a dict; `calculate_score` reads only
`parsed_data["skills"]` and `parsed_data["raw_text"]`, so the scoring
functions below take those two components directly.  The breakdown's
per-category `details` strings are modelled by the `get_*_details`
functions; quote characters inside two advisory strings of the source are
elided. -/

/-- Source: `self.common_keywords["action_verbs"]`. -/
def action_verbs_sample : List (List Char) :=
  ([ "managed", "developed", "implemented", "led", "created", "optimized"
   ] : List String).map strL

/-- Source: `tech_skills` of `ATSScorer._extract_skills_from_text`. -/
def tech_skills_scorer : List (List Char) :=
  ([ "python", "java", "javascript", "typescript", "c++", "c#", "go", "rust",
     "sql", "nosql", "mongodb", "postgresql", "mysql",
     "react", "angular", "vue", "django", "flask", "spring", "node.js",
     "aws", "azure", "gcp", "docker", "kubernetes", "jenkins", "terraform",
     "machine learning", "ai", "data science", "big data", "tableau"
   ] : List String).map strL

/-- Source: `ATSScorer._extract_skills_from_text`: every vocabulary entry occurring as
a substring of the lowercased text.  The source accumulates into a Python
`set` and returns `list(skills)`; the set's contents are exactly the filtered
vocabulary, and only set membership and size are consumed downstream, so the
list is modelled in vocabulary order. -/
def extract_skills_from_text (text : List Char) : List (List Char) :=
  let text_lower := toLowerL text
  tech_skills_scorer.filter (fun skill => containsSubL skill text_lower)

/-- Source: `ATSScorer._calculate_skills_match`. -/
def calculate_skills_match (skills : List (List Char)) (job_description : List Char) : ℚ :=
  if job_description.isEmpty then 0
  else
    let job_skills := extract_skills_from_text job_description
    if job_skills.isEmpty then 0
    else
      -- matched_skills = set(skill.lower() for skill in skills) & set(job_skills)
      let matched_skills :=
        (skills.map toLowerL).dedup.filter (fun s => job_skills.contains s)
      let match_percentage := (matched_skills.length : ℚ) / (job_skills.length : ℚ)
      pymin (match_percentage * 40) 40

/-- The five `quant_patterns` of `_calculate_keywords_score`: literal head,
then `\d+`, then (for the `%` patterns) a percent sign. -/
def quantCount (text_lower : List Char) : ℕ :=
  countLitD (strL "increased by ") true text_lower +
  countLitD (strL "reduced by ") true text_lower +
  countLitD (strL "saved $") false text_lower +
  countLitD (strL "improved by ") true text_lower +
  countLitD (strL "managed $") false text_lower

/-- Source: `ATSScorer._calculate_keywords_score`. -/
def calculate_keywords_score (text : List Char) : ℚ :=
  let text_lower := toLowerL text
  let found_verbs := action_verbs_sample.filter (fun v => containsSubL v text_lower)
  let score : ℚ := ((found_verbs.length : ℚ) / (action_verbs_sample.length : ℚ)) * 10
  let score := score + pymin ((quantCount text_lower : ℚ) * 2) 10
  pymin score 20

/-- Source: `re.match(r'^[\•\-\*]\s', line.strip())` of `_calculate_formatting_score`. -/
def isBulletLine (line : List Char) : Bool :=
  match stripL line with
  | c :: d :: _ => (c = '•' || c = '-' || c = '*') && isSpaceC d
  | _ => false

def required_sections : List (List Char) :=
  ([ "experience", "education", "skills" ] : List String).map strL

/-- Source: `ATSScorer._calculate_formatting_score` (reads only `raw_text`). -/
def calculate_formatting_score (text : List Char) : ℚ :=
  let text_lower := toLowerL text
  -- the section loop subtracts 2 per required section missing from the text
  let secPen : ℚ := 2 * ((required_sections.filter
    (fun s => !containsSubL s text_lower)).length : ℚ)
  let lines := splitOnNl text
  let bullet_lines := lines.filter isBulletLine
  let substantial := lines.filter (fun l => 10 < (stripL l).length)
  let bulletFrac : ℚ := (bullet_lines.length : ℚ) / ((max substantial.length 1 : ℕ) : ℚ)
  let bulletPen : ℚ := if bulletFrac < 3 / 10 then 2 else 0
  let word_count := (splitWsL text).length
  let lenPen : ℚ := if word_count < 200 then 2 else if 800 < word_count then 2 else 0
  pymax (15 - secPen - bulletPen - lenPen) 0

/-- Source: `ATSScorer._calculate_readability_score`. -/
def calculate_readability_score (text : List Char) : ℚ :=
  let sentences := splitSentL text
  let words := splitWsL text
  if sentences.length = 0 || words.length = 0 then 0
  else
    let avg_sentence_length := (words.length : ℚ) / (sentences.length : ℚ)
    if avg_sentence_length ≤ 15 then 15
    else if avg_sentence_length ≤ 20 then 12
    else if avg_sentence_length ≤ 25 then 8
    else 5

def past_tense_sample : List (List Char) :=
  ([ "managed", "developed", "created", "led" ] : List String).map strL

def present_tense_sample : List (List Char) :=
  ([ "manage", "develop", "create", "lead" ] : List String).map strL

/-- Source: `ATSScorer._calculate_grammar_score`: `common_errors` counts the matches of
`r'\bi\s'` and `r'\btheir\s'` on the lowercased text; a mixed past/present
tense detection adds one more error; the deduction is `min(errors * 0.5, 5)`. -/
def calculate_grammar_score (text : List Char) : ℚ :=
  let text_lower := toLowerL text
  let error_count :=
    countBWordWs (strL "i") none text_lower +
    countBWordWs (strL "their") none text_lower
  let past_tense := (scanWB past_tense_sample none text_lower).length
  let present_tense := (scanWB present_tense_sample none text_lower).length
  let error_count :=
    if 0 < past_tense && 0 < present_tense then error_count + 1 else error_count
  let score : ℚ := 10 - pymin ((error_count : ℚ) * (1 / 2)) 5
  pymax score 0

/-- Python `str(n)` for a natural number, as a character list. -/
def natToStrL (n : ℕ) : List Char := (Nat.repr n).data

/-- Source: `ATSScorer._get_skills_match_details`.  `matched_skills` and
`missing_skills` are Python sets; their sizes are exact, and the join of
`missing_skills` is modelled in `job_skills` order (Python set iteration
order is unspecified). -/
def get_skills_match_details (skills : List (List Char)) (job_description : List Char) :
    List (List Char) :=
  if !job_description.isEmpty then
    let job_skills := extract_skills_from_text job_description
    let matched_count :=
      ((skills.map toLowerL).dedup.filter (fun s => job_skills.contains s)).length
    let missing_skills := job_skills.filter (fun s => !(skills.map toLowerL).contains s)
    (strL "Matched " ++ natToStrL matched_count ++ strL " out of " ++
        natToStrL job_skills.length ++ strL " required skills") ::
      (if !missing_skills.isEmpty then
        [strL "Missing skills: " ++ joinSep (strL ", ") missing_skills]
      else [])
  else
    (strL "Found " ++ natToStrL skills.length ++ strL " skills in resume") ::
      (if skills.length < 10 then [strL "Consider adding more relevant skills"] else [])

/-- Source: `ATSScorer._get_keywords_details` (its `quant_patterns` list has
only the four `%`/`saved $` patterns — no `managed \$` — unlike the scoring
one). -/
def get_keywords_details (text : List Char) : List (List Char) :=
  let text_lower := toLowerL text
  let found_verbs := action_verbs_sample.filter (fun v => containsSubL v text_lower)
  let quant_count :=
    countLitD (strL "increased by ") true text_lower +
    countLitD (strL "reduced by ") true text_lower +
    countLitD (strL "saved $") false text_lower +
    countLitD (strL "improved by ") true text_lower
  (strL "Used " ++ natToStrL found_verbs.length ++ strL " action verbs") ::
    (strL "Found " ++ natToStrL quant_count ++ strL " quantifiable achievements") ::
    (if quant_count < 2 then
      [strL "Add more quantifiable results (e.g., increased efficiency by 25%)"]
    else [])

/-- Source: `ATSScorer._get_formatting_details` (reads only `raw_text`;
contains the `bullet_ratio` division of ats_scorer.py line 301). -/
def get_formatting_details (text : List Char) : List (List Char) :=
  let text_lower := toLowerL text
  let missing_sections := required_sections.filter (fun s => !containsSubL s text_lower)
  let d1 :=
    if !missing_sections.isEmpty then
      strL "Missing sections: " ++ joinSep (strL ", ") missing_sections
    else strL "All essential sections present"
  let lines := splitOnNl text
  let bullet_lines := lines.filter isBulletLine
  let substantial := lines.filter (fun l => 10 < (stripL l).length)
  let bulletFrac : ℚ := (bullet_lines.length : ℚ) / ((max substantial.length 1 : ℕ) : ℚ)
  let d2 :=
    if bulletFrac < 3 / 10 then strL "Consider using more bullet points for readability"
    else strL "Good use of bullet points"
  let word_count := (splitWsL text).length
  let d3 :=
    if 300 ≤ word_count ∧ word_count ≤ 600 then strL "Appropriate resume length"
    else if word_count < 300 then strL "Resume might be too short - add more details"
    else strL "Resume might be too long - consider condensing"
  [d1, d2, d3]

/-- Source: `ATSScorer._get_readability_details` (contains the
`avg_sentence_length` division of ats_scorer.py line 328, guarded by the
sentence-count test). -/
def get_readability_details (text : List Char) : List (List Char) :=
  let sentences := splitSentL text
  let words := splitWsL text
  if sentences.length = 0 then [strL "Unable to analyze readability"]
  else
    let avg_sentence_length := (words.length : ℚ) / (sentences.length : ℚ)
    if avg_sentence_length ≤ 15 then [strL "Excellent sentence length"]
    else if avg_sentence_length ≤ 20 then [strL "Good sentence length"]
    else if avg_sentence_length ≤ 25 then [strL "Consider shortening some sentences"]
    else [strL "Some sentences are too long - break them up"]

/-- Source: `ATSScorer._get_grammar_details` (the `\bi\s` search runs on the
original text, not the lowercased one). -/
def get_grammar_details (text : List Char) : List (List Char) :=
  strL "Basic grammar check passed" ::
    (if 0 < countBWordWs (strL "i") none text then
      [strL "Found lowercase I - should be capitalized"]
    else [])

/-- One `breakdown` entry of `calculate_score`. -/
structure CategoryScore where
  score : ℚ
  max_score : ℚ
  details : List (List Char)
deriving DecidableEq

/-- The result of `ATSScorer.calculate_score`. -/
structure ScoreResult where
  total_score : ℚ
  skillsMatchCat : CategoryScore
  keywordsCat : CategoryScore
  formattingCat : CategoryScore
  readabilityCat : CategoryScore
  grammarCat : CategoryScore
deriving DecidableEq

/-- Source: `ATSScorer.calculate_score`.  The weight table is
`{skills_match: 0.35, keywords: 0.25, formatting: 0.15, readability: 0.15,
grammar: 0.10}`; the total is `sum(score * weight) / sum(weights) * 100`,
rounded to one decimal, and each breakdown score is rounded to one decimal. -/
def calculate_score (skills : List (List Char)) (raw_text : List Char)
    (job_description : List Char) : ScoreResult :=
  let sm : ℚ :=
    if !job_description.isEmpty then calculate_skills_match skills job_description
    else pymin (((skills.length : ℚ) / 20) * 40) 40
  let kw := calculate_keywords_score raw_text
  let fm := calculate_formatting_score raw_text
  let rd := calculate_readability_score raw_text
  let gr := calculate_grammar_score raw_text
  let total : ℚ :=
    sm * (35 / 100) + kw * (25 / 100) + fm * (15 / 100) +
    rd * (15 / 100) + gr * (10 / 100)
  let total := total / (35 / 100 + 25 / 100 + 15 / 100 + 15 / 100 + 10 / 100) * 100
  { total_score := pythonRound1 total
    skillsMatchCat :=
      ⟨pythonRound1 sm, 40, get_skills_match_details skills job_description⟩
    keywordsCat := ⟨pythonRound1 kw, 20, get_keywords_details raw_text⟩
    formattingCat := ⟨pythonRound1 fm, 15, get_formatting_details raw_text⟩
    readabilityCat := ⟨pythonRound1 rd, 15, get_readability_details raw_text⟩
    grammarCat := ⟨pythonRound1 gr, 10, get_grammar_details raw_text⟩ }

/-! ## ResumeParser (backend/app/models/resume_parser.py)

Only the parts the claims need: the skill-pattern pass of `_extract_skills`
and `_extract_summary`.  The NER-based half of `_extract_skills` reads the
spaCy entity tagger, an external collaborator outside this core (spec §6),
and is not part of the "skill-pattern pass" the claims reference. -/

/-- The four alternation patterns of `ResumeParser._load_skill_patterns`,
each `\b(alt1|...|altn)\b`. -/
def skill_patterns : List (List (List Char)) :=
  [ -- programming languages
    ([ "python", "java", "javascript", "typescript", "c++", "c#", "go", "rust",
       "swift", "kotlin", "r", "sql" ] : List String).map strL,
    -- frameworks
    ([ "react", "angular", "vue", "django", "flask", "spring", "express",
       "laravel", "rails", "tensorflow", "pytorch" ] : List String).map strL,
    -- tools
    ([ "docker", "kubernetes", "aws", "azure", "gcp", "git", "jenkins",
       "ansible", "terraform" ] : List String).map strL,
    -- soft skills
    ([ "leadership", "communication", "teamwork", "problem-solving",
       "critical thinking", "adaptability" ] : List String).map strL ]

/-- Python string `<` (lexicographic by code point), for `sorted`. -/
def ltStr : List Char → List Char → Bool
  | [], [] => false
  | [], _ :: _ => true
  | _ :: _, [] => false
  | a :: ra, b :: rb => if a < b then true else if b < a then false else ltStr ra rb

def insertSorted (x : List Char) : List (List Char) → List (List Char)
  | [] => [x]
  | y :: ys => if ltStr x y then x :: y :: ys else y :: insertSorted x ys

/-- Python `sorted` on a list of strings. -/
def sortStrings (l : List (List Char)) : List (List Char) :=
  l.foldr insertSorted []

/-- The pattern-matching pass of `ResumeParser._extract_skills`: for each
pattern, every `finditer` match over the lowercased text is title-cased and
added to a set; the result is `sorted(list(skills))`. -/
def extract_skills_pattern_pass (text : List Char) : List (List Char) :=
  let text_lower := toLowerL text
  let found := (skill_patterns.map (fun alts => scanWB alts none text_lower)).flatten
  sortStrings (found.map titleL).dedup

/-- The lookahead alternatives `(?=experience|education|skills|$)` of the
summary section patterns. -/
def section_stop_words : List (List Char) :=
  ([ "experience", "education", "skills" ] : List String).map strL

/-- Does the non-greedy `.*?` stop at this suffix?  Either one of the
lookahead words starts here, or we are at `$` (end of text, or just before a
single trailing newline — Python `$` without `re.MULTILINE`). -/
def stopHere (suffix : List Char) : Bool :=
  section_stop_words.any (fun w => startsWithL w suffix) ||
  suffix.isEmpty || suffix = ['\n']

/-- Number of characters the non-greedy `.*?` consumes before its lookahead
succeeds (it always succeeds at the end of text). -/
def matchLen : List Char → Nat
  | [] => 0
  | c :: rest => if stopHere (c :: rest) then 0 else 1 + matchLen rest

def summary_keywords : List (List Char) :=
  ([ "summary", "objective", "profile" ] : List String).map strL

/-- Source: `ResumeParser._extract_summary`: the three patterns
`kw + '.*?(?=experience|education|skills|$)'` are tried in order with
`re.IGNORECASE | re.DOTALL`; the first match is returned stripped.  A pattern
matches exactly when its keyword occurs in the lowercased text, and the first
match starts at the keyword's first occurrence.  With no match, the fallback
keeps the lines among the first three whose stripped length exceeds 10. -/
def extract_summary (text : List Char) : List Char :=
  let text_lower := toLowerL text
  match summary_keywords.findSome?
      (fun kw => (firstIdxOfSub kw text_lower).map (fun i => (kw, i))) with
  | some (kw, i) =>
    let len := kw.length + matchLen ((text_lower.drop i).drop kw.length)
    stripL ((text.drop i).take len)
  | none =>
    joinNl (((splitOnNl text).take 3).filter (fun line => 10 < (stripL line).length))

/-! ## NLPUtils (backend/app/utils/nlp_utils.py) -/

/-- The character whitelist of the second substitution of `clean_text`:
`[^\w\s.,!?;:]` is removed. -/
def keepC (c : Char) : Bool :=
  isWordC c || isSpaceC c ||
  (c = '.' || c = ',' || c = '!' || c = '?' || c = ';' || c = ':')

/-- Source: `re.sub(r'\s+', ' ', text)`: collapse every whitespace run to one space
(`inWs` records whether the previous character was whitespace). -/
def collapseWsAux : List Char → Bool → List Char
  | [], _ => []
  | c :: rest, inWs =>
    if isSpaceC c then
      if inWs then collapseWsAux rest true else ' ' :: collapseWsAux rest true
    else c :: collapseWsAux rest false

/-- Source: `NLPUtils.clean_text`. -/
def clean_text (text : List Char) : List Char :=
  let text := collapseWsAux text false
  let text := text.filter keepC
  stripL text

/-! ## Data model (`parse_resume` output, spec §3)

The dict `parse_resume` assembles, as a structure.  `regional_format` is the
key `_apply_regional_formatting` adds to an optimized profile dict (absent,
i.e. `none`, on parser output). -/

structure JobEntry where
  title : List Char
  company : List Char
  dates : List (List Char)
  description : List (List Char)
deriving DecidableEq

structure EducationEntry where
  degree : List Char
  institution : List Char
  dates : List (List Char)
  details : List (List Char)
deriving DecidableEq

structure ProjectEntry where
  name : List Char
  description : List (List Char)
deriving DecidableEq

structure PersonalInfo where
  name : Option (List Char)
  email : Option (List Char)
  phone : Option (List Char)
deriving DecidableEq

structure RegionalFormat where
  spelling : List Char
  date_format : List Char
deriving DecidableEq

structure ResumeProfile where
  raw_text : List Char
  skills : List (List Char)
  experience : List JobEntry
  education : List EducationEntry
  projects : List ProjectEntry
  personal_info : PersonalInfo
  summary : List Char
  regional_format : Option RegionalFormat := none
deriving DecidableEq

/-! ## ResumeOptimizer (backend/app/models/optimizer.py) -/

/-- Source: `ResumeOptimizer.action_verbs` (the full ~140-verb list). -/
def action_verbs : List (List Char) :=
  ([ "accelerated", "achieved", "administered", "advanced", "advised", "allocated",
     "analyzed", "assembled", "assessed", "assisted", "attained", "authored",
     "balanced", "boosted", "built", "calculated", "catalyzed", "chaired",
     "changed", "coached", "collaborated", "compiled", "completed", "conceived",
     "conducted", "consolidated", "constructed", "consulted", "controlled",
     "coordinated", "created", "decreased", "delivered", "designed", "developed",
     "devised", "directed", "drove", "edited", "eliminated", "engineered",
     "enhanced", "established", "evaluated", "executed", "expanded", "facilitated",
     "forecasted", "formed", "founded", "generated", "guided", "headed",
     "implemented", "improved", "increased", "influenced", "initiated", "innovated",
     "installed", "instituted", "integrated", "introduced", "invented", "launched",
     "led", "managed", "marketed", "mastered", "mediated", "mentored",
     "modernized", "monitored", "motivated", "negotiated", "operated", "optimized",
     "orchestrated", "organized", "originated", "overhauled", "oversaw", "performed",
     "pioneered", "planned", "prepared", "presented", "processed", "produced",
     "programmed", "projected", "promoted", "proposed", "provided", "published",
     "purchased", "recommended", "recruited", "reduced", "regulated", "reorganized",
     "researched", "restructured", "revamped", "reviewed", "revised", "saved",
     "scheduled", "secured", "selected", "simplified", "sold", "solved",
     "spearheaded", "started", "streamlined", "strengthened", "structured", "supervised",
     "supported", "surpassed", "targeted", "trained", "transformed", "translated",
     "trimmed", "unified", "upgraded", "utilized", "validated", "verified",
     "won", "wrote" ] : List String).map strL

/-- The weak-phrase substitutions of `_improve_bullet_point`, applied in order. -/
def weak_removals : List (List Char) :=
  ([ "responsible for", "duties included", "helped with", "worked on",
     "was involved in" ] : List String).map strL

/-- The `context_verbs` table of `_improve_bullet_point`: ordered
`(alternatives of the regex, verb)` pairs, first match wins.  The patterns
have no word boundaries, so a match is substring containment of any
alternative. -/
def context_verbs : List (List (List Char) × List Char) :=
  [ (([ "manage", "lead", "supervis" ] : List String).map strL, strL "Managed"),
    (([ "develop", "create", "build" ] : List String).map strL, strL "Developed"),
    (([ "analyze", "research", "evaluat" ] : List String).map strL, strL "Analyzed"),
    (([ "improv", "optimiz", "enhanc" ] : List String).map strL, strL "Improved"),
    (([ "implement", "integrat", "deploy" ] : List String).map strL, strL "Implemented") ]

/-- Does `re.search(r'\d+%|\$\d+|\d+\s*(years|months)|increased|decreased|reduced', s)`
match at this position?  (Backtracking inside `\d+`/`\s*` cannot turn a failed
maximal attempt into a success for these tails, so maximal munch is faithful.) -/
def quantifiableAt (s : List Char) : Bool :=
  (let ds := s.takeWhile isDigitC
   !ds.isEmpty &&
     (let after := s.drop ds.length
      (after.head? = some '%') ||
       (let sp := after.takeWhile isSpaceC
        startsWithL (strL "years") (after.drop sp.length) ||
        startsWithL (strL "months") (after.drop sp.length)))) ||
  (match s with
   | '$' :: r => !(r.takeWhile isDigitC).isEmpty
   | _ => false) ||
  startsWithL (strL "increased") s ||
  startsWithL (strL "decreased") s ||
  startsWithL (strL "reduced") s

/-- Source: `re.search` of the quantifiable pattern anywhere in `s` (case-sensitive,
as in the source, which searches the capitalized bullet). -/
def hasQuantifiable : List Char → Bool
  | [] => false
  | c :: rest => quantifiableAt (c :: rest) || hasQuantifiable rest

/-- Source: `ResumeOptimizer._improve_bullet_point`. -/
def improve_bullet_point (bullet : List Char) : List Char :=
  let original := stripL (toLowerL bullet)
  let improved := weak_removals.foldl (fun acc pat => replaceAllL pat [] acc) original
  let improved :=
    if action_verbs.any (fun verb => containsSubL verb improved) then improved
    else
      match context_verbs.findSome? (fun pv =>
          if pv.1.any (fun pat => containsSubL pat improved) then some pv.2 else none) with
      | some verb => verb ++ [' '] ++ improved   -- f"{verb} {improved}"
      | none => strL "Managed " ++ improved       -- default action verb
  let improved := capitalizeL improved
  if !hasQuantifiable improved then
    improved ++ strL " - consider adding quantifiable results"
  else improved

/-- Source: `ResumeOptimizer._optimize_summary` (its `job_description` parameter is
unused by the source body). -/
def optimize_summary (summary : List Char) (_job_description : List Char) : List Char :=
  if summary.isEmpty then
    strL "Experienced professional seeking new opportunities to leverage skills and experience."
  else
    let first_word :=
      match splitWsL summary with
      | w :: _ => toLowerL w
      | [] => []
    let summary :=
      if (action_verbs.map toLowerL).contains first_word then summary
      else strL "Accomplished " ++ toLowerL summary
    match summary with
    | c :: rest => c.toUpper :: rest
    | [] => []

/-- Source: `common_skills` of `ResumeOptimizer._extract_skills_from_jd`. -/
def common_skills_jd : List (List Char) :=
  ([ "python", "java", "javascript", "typescript", "sql", "nosql",
     "react", "angular", "vue", "django", "flask", "spring",
     "aws", "azure", "gcp", "docker", "kubernetes",
     "machine learning", "ai", "data analysis", "tableau",
     "agile", "scrum", "devops", "ci/cd" ] : List String).map strL

/-- Source: `ResumeOptimizer._extract_skills_from_jd`: vocabulary entries contained in
the lowercased job description, title-cased.  (The source returns
`list(set(...))`; only membership and the induced order of the first few
entries are consumed, and the set contents equal the filtered vocabulary,
modelled in vocabulary order.) -/
def extract_skills_from_jd (job_description : List Char) : List (List Char) :=
  let jd_lower := toLowerL job_description
  (common_skills_jd.filter (fun skill => containsSubL skill jd_lower)).map titleL

/-- Source: `ResumeOptimizer._suggest_skills`. -/
def suggest_skills (current_skills : List (List Char)) (job_description : List Char) :
    List (List Char) :=
  if job_description.isEmpty then []
  else
    let job_skills := extract_skills_from_jd job_description
    let missing_skills := job_skills.filter
      (fun skill => !(current_skills.map toLowerL).contains (toLowerL skill))
    missing_skills.take 5

/-- Source: `ResumeOptimizer._extract_keywords`: `re.findall(r'\b[a-zA-Z]{4,}\b', text.lower())`
(equivalently: the maximal word-character runs that are all-alphabetic of
length ≥ 4), minus the stopword set, deduplicated (`list(set(...))`). -/
def extract_keywords (text : List Char) : List (List Char) :=
  let words := (wordRuns (toLowerL text)).filter
    (fun w => 4 ≤ w.length && w.all isAlphaC)
  let common_words :=
    ([ "with", "this", "that", "have", "from", "they", "were", "their" ] : List String).map strL
  (words.filter (fun w => !common_words.contains w)).dedup

/-- The `weak_patterns` table of `_suggest_experience_improvements`
(pattern, suggestion text); the source's quote characters inside the first
suggestion string are elided. -/
def weak_patterns : List (List Char × List Char) :=
  [ (strL "responsible for", strL "Use action verbs instead of responsible for"),
    (strL "duties included", strL "Start with action verbs"),
    (strL "helped with", strL "Be more specific about your contribution"),
    (strL "worked on", strL "Specify what you achieved") ]

structure BulletTriple where
  original : List Char
  suggestion : List Char
  improved : List Char
deriving DecidableEq

structure JobSuggestion where
  title : List Char
  suggestions : List BulletTriple
deriving DecidableEq

/-- Source: `ResumeOptimizer._suggest_experience_improvements`: one triple per bullet
matching a weak pattern (first pattern wins); jobs with no flagged bullet are
dropped. -/
def suggest_experience_improvements (experience : List JobEntry) : List JobSuggestion :=
  (experience.map (fun job =>
    { title := job.title
      suggestions := job.description.filterMap (fun bullet =>
        (weak_patterns.findSome? (fun ps =>
            if containsSubL ps.1 (toLowerL bullet) then some ps.2 else none)).map
          (fun sugg =>
            { original := bullet, suggestion := sugg,
              improved := improve_bullet_point bullet })) })).filter
    (fun js => !js.suggestions.isEmpty)

/-- Source: `ResumeOptimizer._suggest_summary_improvements`. -/
def suggest_summary_improvements (summary : List Char) (job_description : List Char) :
    List (List Char) :=
  let s1 :=
    if summary.isEmpty || (stripL summary).length < 50 then
      [strL "Summary is too short. Add 2-3 sentences highlighting key achievements."]
    else []
  let s2 :=
    if !job_description.isEmpty then
      let jd_keywords := extract_keywords job_description
      let summary_keywords := extract_keywords summary
      let missing := jd_keywords.filter (fun kw => !summary_keywords.contains kw)
      if !missing.isEmpty then
        [strL "Consider adding these keywords: " ++ joinSep (strL ", ") (missing.take 3)]
      else []
    else []
  let action_verb_count :=
    (action_verbs.filter (fun verb => containsSubL verb (toLowerL summary))).length
  let s3 :=
    if action_verb_count < 1 then
      [strL "Start with a strong action verb to make your summary more impactful"]
    else []
  s1 ++ s2 ++ s3

/-- Source: `ResumeOptimizer._suggest_keywords`. -/
def suggest_keywords (resume_text : List Char) (job_description : List Char) :
    List (List Char) :=
  if job_description.isEmpty then []
  else
    let jd_keywords := extract_keywords job_description
    let resume_keywords := extract_keywords resume_text
    (jd_keywords.filter (fun kw => !resume_keywords.contains kw)).take 10

structure BulletRewrite where
  original : List Char
  improved : List Char
  reason : List Char
deriving DecidableEq

/-- Source: `ResumeOptimizer._suggest_bullet_point_improvements`. -/
def suggest_bullet_point_improvements (experience : List JobEntry) : List BulletRewrite :=
  ((experience.map (fun job => job.description.filterMap (fun bullet =>
      let improved := improve_bullet_point bullet
      if improved ≠ bullet then
        some { original := bullet, improved := improved,
               reason := strL "Made more action-oriented and results-focused" }
      else none))).flatten).take 5

structure SuggestionBundle where
  skills : List (List Char)
  experience : List JobSuggestion
  summary : List (List Char)
  keywords : List (List Char)
  bullet_points : List BulletRewrite
deriving DecidableEq

/-- Source: `ResumeOptimizer.get_suggestions`. -/
def get_suggestions (p : ResumeProfile) (job_description : List Char) : SuggestionBundle :=
  { skills := suggest_skills p.skills job_description
    experience := suggest_experience_improvements p.experience
    summary := suggest_summary_improvements p.summary job_description
    keywords := suggest_keywords p.raw_text job_description
    bullet_points := suggest_bullet_point_improvements p.experience }

/-- The bullet transform of `_optimize_experience`: improve, then strip the
advisory suffix from the persisted variant. -/
def optimize_bullet_final (bullet : List Char) : List Char :=
  let optimized := improve_bullet_point bullet
  if containsSubL (strL "consider adding") optimized then
    replaceAllL (strL " - consider adding quantifiable results") [] optimized
  else optimized

/-- Source: `ResumeOptimizer._optimize_experience` (value level; each job dict is
copied with a rewritten `description`). -/
def optimize_experience (experience : List JobEntry) : List JobEntry :=
  experience.map (fun job =>
    { job with description := job.description.map optimize_bullet_final })

/-- First-seen case-insensitive deduplication loop of `_enhance_skills`. -/
def uniqueCaseInsAux (seen : List (List Char)) : List (List Char) → List (List Char)
  | [] => []
  | skill :: rest =>
    let skill_lower := toLowerL skill
    if seen.contains skill_lower then uniqueCaseInsAux seen rest
    else skill :: uniqueCaseInsAux (skill_lower :: seen) rest

/-- Source: `ResumeOptimizer._enhance_skills`. -/
def enhance_skills (current_skills : List (List Char)) (job_description : List Char) :
    List (List Char) :=
  let enhanced_skills :=
    current_skills ++
      (if !job_description.isEmpty then suggest_skills current_skills job_description
       else [])
  uniqueCaseInsAux [] enhanced_skills

/-- The `regional_changes` table of `_apply_regional_formatting` with its
`.get(region, regional_changes["US"])` lookup. -/
def regional_info (region : List Char) : RegionalFormat :=
  if region = strL "US" then ⟨strL "color", strL "MM/DD/YYYY"⟩
  else if region = strL "UK" then ⟨strL "colour", strL "DD/MM/YYYY"⟩
  else if region = strL "India" then ⟨strL "colour", strL "DD/MM/YYYY"⟩
  else ⟨strL "color", strL "MM/DD/YYYY"⟩

/-- Source: `ResumeOptimizer._apply_regional_formatting` (adds the
`regional_format` key; no text field is transformed). -/
def apply_regional_formatting (resume_data : ResumeProfile) (region : List Char) :
    ResumeProfile :=
  { resume_data with regional_format := some (regional_info region) }

/-- Source: `ResumeOptimizer.optimize_resume` (value level; the heap-level embedding
`optimize_resumeH` below captures the copy/mutation behaviour). -/
def optimize_resume (p : ResumeProfile) (job_description region : List Char) :
    ResumeProfile :=
  let optimized := p  -- optimized = parsed_data.copy()
  let optimized := { optimized with summary := optimize_summary p.summary job_description }
  let optimized := { optimized with experience := optimize_experience p.experience }
  let optimized := { optimized with skills := enhance_skills p.skills job_description }
  apply_regional_formatting optimized region

/-! ## Checked mirrors of the fallible operations

Every spot where the Python could raise — a division (`ZeroDivisionError`)
or a `[0]` index (`IndexError`) — is routed through a checked operation in
an `Except` monad; the guards surrounding those spots are kept exactly as in
the source.  `calculate_scoreE` / `get_suggestionsE` / `optimize_resumeE`
returning `Except.ok` for all inputs is the totality property of claim C8. -/

def qdiv (a b : ℚ) : Except (List Char) ℚ :=
  if b = 0 then .error (strL "ZeroDivisionError") else .ok (a / b)

def headE {α : Type} : List α → Except (List Char) α
  | [] => .error (strL "IndexError")
  | a :: _ => .ok a

/-- Source: `_calculate_skills_match`, with its division checked. -/
def calculate_skills_matchE (skills : List (List Char)) (job_description : List Char) :
    Except (List Char) ℚ :=
  if job_description.isEmpty then .ok 0
  else
    let job_skills := extract_skills_from_text job_description
    if job_skills.isEmpty then .ok 0
    else do
      let matched_skills :=
        (skills.map toLowerL).dedup.filter (fun s => job_skills.contains s)
      let match_percentage ← qdiv (matched_skills.length : ℚ) (job_skills.length : ℚ)
      return pymin (match_percentage * 40) 40

/-- Source: `_calculate_keywords_score`, with its division checked. -/
def calculate_keywords_scoreE (text : List Char) : Except (List Char) ℚ := do
  let text_lower := toLowerL text
  let found_verbs := action_verbs_sample.filter (fun v => containsSubL v text_lower)
  let frac ← qdiv (found_verbs.length : ℚ) (action_verbs_sample.length : ℚ)
  let score := frac * 10
  let score := score + pymin ((quantCount text_lower : ℚ) * 2) 10
  return pymin score 20

/-- Source: `_calculate_formatting_score`, with its division checked. -/
def calculate_formatting_scoreE (text : List Char) : Except (List Char) ℚ := do
  let text_lower := toLowerL text
  let secPen : ℚ := 2 * ((required_sections.filter
    (fun s => !containsSubL s text_lower)).length : ℚ)
  let lines := splitOnNl text
  let bullet_lines := lines.filter isBulletLine
  let substantial := lines.filter (fun l => 10 < (stripL l).length)
  let bulletFrac ← qdiv (bullet_lines.length : ℚ) ((max substantial.length 1 : ℕ) : ℚ)
  let bulletPen : ℚ := if bulletFrac < 3 / 10 then 2 else 0
  let word_count := (splitWsL text).length
  let lenPen : ℚ := if word_count < 200 then 2 else if 800 < word_count then 2 else 0
  return pymax (15 - secPen - bulletPen - lenPen) 0

/-- Source: `_calculate_readability_score`, with its division checked (the source's
own zero test guards it). -/
def calculate_readability_scoreE (text : List Char) : Except (List Char) ℚ :=
  let sentences := splitSentL text
  let words := splitWsL text
  if sentences.length = 0 || words.length = 0 then .ok 0
  else do
    let avg_sentence_length ← qdiv (words.length : ℚ) (sentences.length : ℚ)
    return (if avg_sentence_length ≤ 15 then (15 : ℚ)
      else if avg_sentence_length ≤ 20 then 12
      else if avg_sentence_length ≤ 25 then 8
      else 5)

/-- Source: `_get_formatting_details`, with its `bullet_ratio` division
(ats_scorer.py line 301) checked. -/
def get_formatting_detailsE (text : List Char) : Except (List Char) (List (List Char)) := do
  let text_lower := toLowerL text
  let missing_sections := required_sections.filter (fun s => !containsSubL s text_lower)
  let d1 :=
    if !missing_sections.isEmpty then
      strL "Missing sections: " ++ joinSep (strL ", ") missing_sections
    else strL "All essential sections present"
  let lines := splitOnNl text
  let bullet_lines := lines.filter isBulletLine
  let substantial := lines.filter (fun l => 10 < (stripL l).length)
  let bulletFrac ← qdiv (bullet_lines.length : ℚ) ((max substantial.length 1 : ℕ) : ℚ)
  let d2 :=
    if bulletFrac < 3 / 10 then strL "Consider using more bullet points for readability"
    else strL "Good use of bullet points"
  let word_count := (splitWsL text).length
  let d3 :=
    if 300 ≤ word_count ∧ word_count ≤ 600 then strL "Appropriate resume length"
    else if word_count < 300 then strL "Resume might be too short - add more details"
    else strL "Resume might be too long - consider condensing"
  return [d1, d2, d3]

/-- Source: `_get_readability_details`, with its `avg_sentence_length`
division (ats_scorer.py line 328) checked; the source's own sentence-count
test guards it. -/
def get_readability_detailsE (text : List Char) : Except (List Char) (List (List Char)) :=
  let sentences := splitSentL text
  let words := splitWsL text
  if sentences.length = 0 then .ok [strL "Unable to analyze readability"]
  else do
    let avg_sentence_length ← qdiv (words.length : ℚ) (sentences.length : ℚ)
    return (if avg_sentence_length ≤ 15 then [strL "Excellent sentence length"]
      else if avg_sentence_length ≤ 20 then [strL "Good sentence length"]
      else if avg_sentence_length ≤ 25 then [strL "Consider shortening some sentences"]
      else [strL "Some sentences are too long - break them up"])

/-- Source: `ATSScorer.calculate_score` over the checked sub-scores and the
checked breakdown details (`_get_skills_match_details`,
`_get_keywords_details` and `_get_grammar_details` contain no division or
indexing and lift directly). -/
def calculate_scoreE (p : ResumeProfile) (job_description : List Char) :
    Except (List Char) ScoreResult := do
  let sm ←
    if !job_description.isEmpty then calculate_skills_matchE p.skills job_description
    else .ok (pymin (((p.skills.length : ℚ) / 20) * 40) 40)
  let kw ← calculate_keywords_scoreE p.raw_text
  let fm ← calculate_formatting_scoreE p.raw_text
  let rd ← calculate_readability_scoreE p.raw_text
  let gr := calculate_grammar_score p.raw_text
  let total : ℚ :=
    sm * (35 / 100) + kw * (25 / 100) + fm * (15 / 100) +
    rd * (15 / 100) + gr * (10 / 100)
  let total := total / (35 / 100 + 25 / 100 + 15 / 100 + 15 / 100 + 10 / 100) * 100
  let fmDetails ← get_formatting_detailsE p.raw_text
  let rdDetails ← get_readability_detailsE p.raw_text
  return { total_score := pythonRound1 total
           skillsMatchCat :=
             ⟨pythonRound1 sm, 40, get_skills_match_details p.skills job_description⟩
           keywordsCat := ⟨pythonRound1 kw, 20, get_keywords_details p.raw_text⟩
           formattingCat := ⟨pythonRound1 fm, 15, fmDetails⟩
           readabilityCat := ⟨pythonRound1 rd, 15, rdDetails⟩
           grammarCat := ⟨pythonRound1 gr, 10, get_grammar_details p.raw_text⟩ }

/-- Source: `ResumeOptimizer.get_suggestions`: the suggestion path contains no
division and no unguarded index, so each field lifts directly. -/
def get_suggestionsE (p : ResumeProfile) (job_description : List Char) :
    Except (List Char) SuggestionBundle :=
  .ok { skills := suggest_skills p.skills job_description
        experience := suggest_experience_improvements p.experience
        summary := suggest_summary_improvements p.summary job_description
        keywords := suggest_keywords p.raw_text job_description
        bullet_points := suggest_bullet_point_improvements p.experience }

/-- Source: `_optimize_summary`, with its two guarded `[0]` accesses checked
(`summary.split()[0] if summary.split() else ""` and
`summary[0].upper() + summary[1:] if summary else summary`). -/
def optimize_summaryE (summary : List Char) (_job_description : List Char) :
    Except (List Char) (List Char) :=
  if summary.isEmpty then
    .ok (strL "Experienced professional seeking new opportunities to leverage skills and experience.")
  else do
    let first_word ←
      if !(splitWsL summary).isEmpty then
        (headE (splitWsL summary)).map toLowerL
      else .ok []
    let summary :=
      if (action_verbs.map toLowerL).contains first_word then summary
      else strL "Accomplished " ++ toLowerL summary
    if !summary.isEmpty then
      (headE summary).map (fun c => c.toUpper :: summary.drop 1)
    else .ok summary

/-- Source: `ResumeOptimizer.optimize_resume` over the checked summary optimizer. -/
def optimize_resumeE (p : ResumeProfile) (job_description region : List Char) :
    Except (List Char) ResumeProfile := do
  let optimized := p
  let s ← optimize_summaryE p.summary job_description
  let optimized := { optimized with summary := s }
  let optimized := { optimized with experience := optimize_experience p.experience }
  let optimized := { optimized with skills := enhance_skills p.skills job_description }
  return apply_regional_formatting optimized region

/-! ## Heap-level model of `optimize_resume` (claim C9)

Python dicts and lists are heap objects; `optimize_resume` receives the
profile dict produced by `parse_resume` and must not mutate it.  The heap
holds list cells and dict cells addressed by allocation index; allocation
appends a cell, mutation (`d[k] = v`, `l.extend(...)`) updates a cell in
place.  `optimize_resumeH` performs exactly the source's copies, reads,
allocations and in-place updates, delegating the pure string work to the
value-level functions above. -/

inductive PyVal where
  | vStr : List Char → PyVal
  | vList : Nat → PyVal
  | vDict : Nat → PyVal
deriving DecidableEq

structure Heap where
  lists : List (List PyVal)
  dicts : List (List (List Char × PyVal))
deriving DecidableEq

def Heap.getList (h : Heap) (a : Nat) : List PyVal := h.lists.getD a []

def Heap.getDict (h : Heap) (a : Nat) : List (List Char × PyVal) := h.dicts.getD a []

/-- Allocate a new list object. -/
def Heap.allocList (h : Heap) (xs : List PyVal) : Nat × Heap :=
  (h.lists.length, { h with lists := h.lists ++ [xs] })

/-- Allocate a new dict object. -/
def Heap.allocDict (h : Heap) (entries : List (List Char × PyVal)) : Nat × Heap :=
  (h.dicts.length, { h with dicts := h.dicts ++ [entries] })

/-- Python `d[k] = v` on an assoc representation: an existing key keeps its
position, a new key is appended. -/
def assocSet : List (List Char × PyVal) → List Char → PyVal → List (List Char × PyVal)
  | [], k, v => [(k, v)]
  | (k0, v0) :: rest, k, v =>
    if k0 = k then (k, v) :: rest else (k0, v0) :: assocSet rest k v

/-- In-place `d[k] = v` on the dict at address `a`. -/
def Heap.setKey (h : Heap) (a : Nat) (k : List Char) (v : PyVal) : Heap :=
  { h with dicts := h.dicts.set a (assocSet (h.getDict a) k v) }

/-- In-place replacement of the list cell at address `a` (used for
`list.extend`). -/
def Heap.setListCell (h : Heap) (a : Nat) (xs : List PyVal) : Heap :=
  { h with lists := h.lists.set a xs }

def assocGet (entries : List (List Char × PyVal)) (k : List Char) : PyVal :=
  match entries.find? (fun e => e.1 = k) with
  | some e => e.2
  | none => PyVal.vStr []

/-- Source: `d[k]` / `d.get(k, default)` read on the dict at address `a`. -/
def Heap.dictGet (h : Heap) (a : Nat) (k : List Char) : PyVal :=
  assocGet (h.getDict a) k

def asStr : PyVal → List Char
  | .vStr s => s
  | _ => []

/-- Read a list-of-strings value (e.g. a `description` or `skills` field). -/
def Heap.strListAt (h : Heap) (v : PyVal) : List (List Char) :=
  match v with
  | .vList a => (h.getList a).map asStr
  | _ => []

/-- Source: `_enhance_skills` at heap level: `current_skills.copy()` allocates,
`enhanced_skills.extend(missing_skills)` mutates that fresh cell, and the
dedup loop builds a fresh result list. -/
def enhance_skillsH (h : Heap) (current_skills : List (List Char))
    (job_description : List Char) : Nat × Heap :=
  let e := h.allocList (current_skills.map PyVal.vStr)
  let h1 :=
    if !job_description.isEmpty then
      e.2.setListCell e.1
        (e.2.getList e.1 ++ (suggest_skills current_skills job_description).map PyVal.vStr)
    else e.2
  let enhanced := (h1.getList e.1).map asStr
  h1.allocList ((uniqueCaseInsAux [] enhanced).map PyVal.vStr)

/-- Source: `_optimize_experience` at heap level: per job, `job.copy()` allocates a
dict, the rewritten bullet list is allocated fresh, and only the fresh copy's
`description` key is assigned.  A non-dict element is passed through
untouched (a well-formed profile has only dict entries). -/
def optimize_experienceH (h : Heap) : List PyVal → List PyVal × Heap
  | [] => ([], h)
  | job :: rest =>
    match job with
    | PyVal.vDict j =>
      let c := h.allocDict (h.getDict j)
      let bullets := c.2.strListAt (c.2.dictGet j (strL "description"))
      let b := c.2.allocList ((bullets.map optimize_bullet_final).map PyVal.vStr)
      let h3 := b.2.setKey c.1 (strL "description") (PyVal.vList b.1)
      let r := optimize_experienceH h3 rest
      (PyVal.vDict c.1 :: r.1, r.2)
    | v =>
      let r := optimize_experienceH h rest
      (v :: r.1, r.2)

/-- Source: `ResumeOptimizer.optimize_resume` at heap level:
`optimized = parsed_data.copy()` then key assignments on the copy only;
`_apply_regional_formatting` assigns the `regional_format` key on the copy. -/
def optimize_resumeH (h : Heap) (p : Nat) (job_description region : List Char) :
    Nat × Heap :=
  let c := h.allocDict (h.getDict p)
  let summary := asStr (c.2.dictGet p (strL "summary"))
  let h1 := c.2.setKey c.1 (strL "summary")
    (PyVal.vStr (optimize_summary summary job_description))
  let jobs :=
    match h1.dictGet p (strL "experience") with
    | PyVal.vList a => h1.getList a
    | _ => []
  let r := optimize_experienceH h1 jobs
  let e := r.2.allocList r.1
  let h2 := e.2.setKey c.1 (strL "experience") (PyVal.vList e.1)
  let skills := h2.strListAt (h2.dictGet p (strL "skills"))
  let sk := enhance_skillsH h2 skills job_description
  let h3 := sk.2.setKey c.1 (strL "skills") (PyVal.vList sk.1)
  let rf := h3.allocDict
    [ (strL "spelling", PyVal.vStr (regional_info region).spelling),
      (strL "date_format", PyVal.vStr (regional_info region).date_format) ]
  let h4 := rf.2.setKey c.1 (strL "regional_format") (PyVal.vDict rf.1)
  (c.1, h4)

/-! ## Rounding bounds -/

theorem roundHE_nonneg {q : ℚ} (h : 0 ≤ q) : 0 ≤ roundHE q := by
  unfold roundHE
  rw [ratFloor_eq_floor]
  have hf : (0 : ℤ) ≤ ⌊q⌋ := Int.floor_nonneg.mpr h
  split_ifs <;> omega

theorem roundHE_le_intCast {q : ℚ} {m : ℤ} (h : q ≤ (m : ℚ)) : roundHE q ≤ m := by
  unfold roundHE
  rw [ratFloor_eq_floor]
  have hfm : ⌊q⌋ ≤ m := by
    have h2 : ⌊q⌋ ≤ ⌊(m : ℚ)⌋ := Int.floor_le_floor h
    rwa [Int.floor_intCast] at h2
  rcases eq_or_lt_of_le hfm with heq | hlt
  · have hcast : (⌊q⌋ : ℚ) = (m : ℚ) := by exact_mod_cast heq
    have hq : q - (⌊q⌋ : ℚ) < 1 / 2 := by
      have : q ≤ (⌊q⌋ : ℚ) := by rw [hcast]; exact h
      linarith
    rw [if_pos hq]
    exact hfm
  · split_ifs <;> omega

theorem pythonRound1_nonneg {x : ℚ} (h : 0 ≤ x) : 0 ≤ pythonRound1 x := by
  unfold pythonRound1
  have : (0 : ℤ) ≤ roundHE (x * 10) := roundHE_nonneg (by linarith)
  positivity

theorem pythonRound1_le_nat {x : ℚ} {n : ℕ} (h : x ≤ (n : ℚ)) : pythonRound1 x ≤ (n : ℚ) := by
  unfold pythonRound1
  have h10 : x * 10 ≤ ((10 * (n : ℤ) : ℤ) : ℚ) := by push_cast; linarith
  have := roundHE_le_intCast h10
  have hcast : (roundHE (x * 10) : ℚ) ≤ ((10 * (n : ℤ) : ℤ) : ℚ) := by exact_mod_cast this
  push_cast at hcast ⊢
  linarith

/-! ## Sub-score bounds -/

theorem skills_match_bounds (skills : List (List Char)) (jd : List Char) :
    0 ≤ calculate_skills_match skills jd ∧ calculate_skills_match skills jd ≤ 40 := by
  unfold calculate_skills_match
  dsimp only
  split_ifs
  · norm_num
  · norm_num
  · rw [pymin_eq_min]
    constructor
    · apply le_min
      · positivity
      · norm_num
    · exact min_le_right _ _

theorem skills_quantity_bounds (skills : List (List Char)) :
    0 ≤ pymin (((skills.length : ℚ) / 20) * 40) 40 ∧
    pymin (((skills.length : ℚ) / 20) * 40) 40 ≤ 40 := by
  rw [pymin_eq_min]
  constructor
  · apply le_min
    · positivity
    · norm_num
  · exact min_le_right _ _

theorem keywords_score_bounds (text : List Char) :
    0 ≤ calculate_keywords_score text ∧ calculate_keywords_score text ≤ 20 := by
  unfold calculate_keywords_score
  dsimp only
  rw [pymin_eq_min, pymin_eq_min]
  constructor
  · apply le_min
    · have h1 : (0 : ℚ) ≤ (((action_verbs_sample.filter
          (fun v => containsSubL v (toLowerL text))).length : ℚ) /
            (action_verbs_sample.length : ℚ)) * 10 := by positivity
      have h2 : (0 : ℚ) ≤ min ((quantCount (toLowerL text) : ℚ) * 2) 10 := by
        apply le_min
        · positivity
        · norm_num
      linarith
    · norm_num
  · exact min_le_right _ _

theorem formatting_score_bounds (text : List Char) :
    0 ≤ calculate_formatting_score text ∧ calculate_formatting_score text ≤ 15 := by
  unfold calculate_formatting_score
  dsimp only
  rw [pymax_eq_max]
  constructor
  · exact le_max_right _ _
  · apply max_le
    · have h1 : (0 : ℚ) ≤ 2 * ((required_sections.filter
          (fun s => !containsSubL s (toLowerL text))).length : ℚ) := by positivity
      split_ifs <;> linarith
    · norm_num

theorem readability_score_bounds (text : List Char) :
    0 ≤ calculate_readability_score text ∧ calculate_readability_score text ≤ 15 := by
  unfold calculate_readability_score
  dsimp only
  split_ifs <;> norm_num

theorem grammar_shape (k : ℕ) :
    5 ≤ pymax (10 - pymin ((k : ℚ) * (1 / 2)) 5) 0 ∧
    pymax (10 - pymin ((k : ℚ) * (1 / 2)) 5) 0 ≤ 10 := by
  rw [pymax_eq_max, pymin_eq_min]
  have h1 : min ((k : ℚ) * (1 / 2)) 5 ≤ 5 := min_le_right _ _
  have h2 : (0 : ℚ) ≤ min ((k : ℚ) * (1 / 2)) 5 := le_min (by positivity) (by norm_num)
  constructor
  · exact le_max_of_le_left (by linarith)
  · exact max_le (by linarith) (by norm_num)

theorem grammar_score_bounds (text : List Char) :
    5 ≤ calculate_grammar_score text ∧ calculate_grammar_score text ≤ 10 := by
  unfold calculate_grammar_score
  dsimp only
  exact grammar_shape _

theorem pythonRound1_mem (x : ℚ) (n : ℕ) (h0 : 0 ≤ x) (hn : x ≤ (n : ℚ)) :
    0 ≤ pythonRound1 x ∧ pythonRound1 x ≤ (n : ℚ) :=
  ⟨pythonRound1_nonneg h0, pythonRound1_le_nat hn⟩

/-- A 20-element skill list (contents irrelevant: with no job description the
scorer only reads its length). -/
def twenty_skills : List (List Char) :=
  ([ "s01", "s02", "s03", "s04", "s05", "s06", "s07", "s08", "s09", "s10",
     "s11", "s12", "s13", "s14", "s15", "s16", "s17", "s18", "s19", "s20"
   ] : List String).map strL

theorem roundHE_intCast (m : ℤ) : roundHE (m : ℚ) = m := by
  unfold roundHE
  rw [ratFloor_eq_floor, Int.floor_intCast]
  norm_num

theorem pythonRound1_eval {x : ℚ} {m : ℤ} (h : x * 10 = (m : ℚ)) :
    pythonRound1 x = (m : ℚ) / 10 := by
  unfold pythonRound1
  rw [h, roundHE_intCast]

theorem keywords_score_nil : calculate_keywords_score [] = 0 := by
  unfold calculate_keywords_score
  dsimp only
  have h1 : (action_verbs_sample.filter (fun v => containsSubL v (toLowerL []))).length = 0 := rfl
  have h2 : quantCount (toLowerL []) = 0 := rfl
  rw [h1, h2]
  norm_num [pymin_eq_min]

theorem formatting_score_nil : calculate_formatting_score [] = 5 := by
  unfold calculate_formatting_score
  dsimp only
  have h1 : (required_sections.filter (fun s => !containsSubL s (toLowerL []))).length = 3 := rfl
  have h2 : ((splitOnNl []).filter isBulletLine).length = 0 := rfl
  have h3 : ((splitOnNl []).filter (fun l => 10 < (stripL l).length)).length = 0 := rfl
  have h4 : (splitWsL []).length = 0 := rfl
  rw [h1, h2, h3, h4]
  norm_num [pymax_eq_max]

theorem readability_score_nil : calculate_readability_score [] = 0 := by
  unfold calculate_readability_score
  dsimp only
  have h1 : (splitWsL []).length = 0 := rfl
  rw [h1]
  simp

theorem grammar_score_nil : calculate_grammar_score [] = 10 := by
  unfold calculate_grammar_score
  dsimp only
  have h1 : countBWordWs (strL "i") none (toLowerL []) = 0 := rfl
  have h2 : countBWordWs (strL "their") none (toLowerL []) = 0 := rfl
  have h3 : (scanWB past_tense_sample none (toLowerL [])).length = 0 := rfl
  rw [h1, h2, h3]
  norm_num [pymin_eq_min, pymax_eq_max]

/-- Claim C1 (code_bug): `calculate_score` is claimed to return a
`total_score` in [0, 100], and its own comment says "Convert to 0-100 scale",
but the sub-scores (scales 40/20/15/15/10) are combined with weights summing
to 1 and then multiplied by 100, so a profile with 20 skills, empty raw text
and no job description scores 1575.0 — far above 100. -/
theorem C1_total_score_exceeds_100 :
    (calculate_score twenty_skills [] []).total_score = 1575 ∧
    100 < (calculate_score twenty_skills [] []).total_score := by
  have hv : (calculate_score twenty_skills [] []).total_score = 1575 := by
    unfold calculate_score
    dsimp only
    rw [keywords_score_nil, formatting_score_nil, readability_score_nil, grammar_score_nil]
    have hlen : twenty_skills.length = 20 := rfl
    rw [if_neg (by simp), hlen]
    have hq : pymin (((20 : ℕ) : ℚ) / 20 * 40) 40 = 40 := by
      rw [pymin_eq_min]; norm_num
    rw [hq]
    have : (40 * (35 / 100) + 0 * (25 / 100) + 5 * (15 / 100) + 0 * (15 / 100) +
        10 * (10 / 100)) / (35 / 100 + 25 / 100 + 15 / 100 + 15 / 100 + 10 / 100) *
        100 * 10 = ((15750 : ℤ) : ℚ) := by norm_num
    rw [pythonRound1_eval this]
    norm_num
  exact ⟨hv, by rw [hv]; norm_num⟩

/-- Claim C10: every breakdown entry of `calculate_score` satisfies
`0 ≤ score ≤ max_score`, with the per-category maxima 40/20/15/15/10. -/
theorem C10_category_bounds (skills : List (List Char)) (raw_text job_description : List Char) :
    (0 ≤ (calculate_score skills raw_text job_description).skillsMatchCat.score ∧
      (calculate_score skills raw_text job_description).skillsMatchCat.score ≤ 40 ∧
      (calculate_score skills raw_text job_description).skillsMatchCat.max_score = 40) ∧
    (0 ≤ (calculate_score skills raw_text job_description).keywordsCat.score ∧
      (calculate_score skills raw_text job_description).keywordsCat.score ≤ 20 ∧
      (calculate_score skills raw_text job_description).keywordsCat.max_score = 20) ∧
    (0 ≤ (calculate_score skills raw_text job_description).formattingCat.score ∧
      (calculate_score skills raw_text job_description).formattingCat.score ≤ 15 ∧
      (calculate_score skills raw_text job_description).formattingCat.max_score = 15) ∧
    (0 ≤ (calculate_score skills raw_text job_description).readabilityCat.score ∧
      (calculate_score skills raw_text job_description).readabilityCat.score ≤ 15 ∧
      (calculate_score skills raw_text job_description).readabilityCat.max_score = 15) ∧
    (0 ≤ (calculate_score skills raw_text job_description).grammarCat.score ∧
      (calculate_score skills raw_text job_description).grammarCat.score ≤ 10 ∧
      (calculate_score skills raw_text job_description).grammarCat.max_score = 10) := by
  unfold calculate_score
  dsimp only
  refine ⟨⟨?_, ?_, rfl⟩, ⟨?_, ?_, rfl⟩, ⟨?_, ?_, rfl⟩, ⟨?_, ?_, rfl⟩, ⟨?_, ?_, rfl⟩⟩
  · split_ifs
    · exact (pythonRound1_mem _ 40 (skills_match_bounds skills job_description).1
        (by exact_mod_cast (skills_match_bounds skills job_description).2)).1
    · exact (pythonRound1_mem _ 40 (skills_quantity_bounds skills).1
        (by exact_mod_cast (skills_quantity_bounds skills).2)).1
  · split_ifs
    · exact_mod_cast (pythonRound1_mem _ 40 (skills_match_bounds skills job_description).1
        (by exact_mod_cast (skills_match_bounds skills job_description).2)).2
    · exact_mod_cast (pythonRound1_mem _ 40 (skills_quantity_bounds skills).1
        (by exact_mod_cast (skills_quantity_bounds skills).2)).2
  · exact (pythonRound1_mem _ 20 (keywords_score_bounds raw_text).1
      (by exact_mod_cast (keywords_score_bounds raw_text).2)).1
  · exact_mod_cast (pythonRound1_mem _ 20 (keywords_score_bounds raw_text).1
      (by exact_mod_cast (keywords_score_bounds raw_text).2)).2
  · exact (pythonRound1_mem _ 15 (formatting_score_bounds raw_text).1
      (by exact_mod_cast (formatting_score_bounds raw_text).2)).1
  · exact_mod_cast (pythonRound1_mem _ 15 (formatting_score_bounds raw_text).1
      (by exact_mod_cast (formatting_score_bounds raw_text).2)).2
  · exact (pythonRound1_mem _ 15 (readability_score_bounds raw_text).1
      (by exact_mod_cast (readability_score_bounds raw_text).2)).1
  · exact_mod_cast (pythonRound1_mem _ 15 (readability_score_bounds raw_text).1
      (by exact_mod_cast (readability_score_bounds raw_text).2)).2
  · exact (pythonRound1_mem _ 10 (by linarith [(grammar_score_bounds raw_text).1])
      (by exact_mod_cast (grammar_score_bounds raw_text).2)).1
  · exact_mod_cast (pythonRound1_mem _ 10 (by linarith [(grammar_score_bounds raw_text).1])
      (by exact_mod_cast (grammar_score_bounds raw_text).2)).2

/-! ## Claim C2 -/

/-- Claim C2 (counterexample): the skill set the scorer extracts from a text
does not always equal the set produced by the parser's skill-pattern pass —
on the input "swift" the parser finds {Swift} and the scorer finds nothing. -/
theorem C2_skill_sets_differ_on_swift :
    (extract_skills_from_text (strL "swift")).toFinset ≠
      (extract_skills_pattern_pass (strL "swift")).toFinset := by decide

/-- Claim C2 (amended): the two components use different fixed vocabularies
("swift" appears only in the parser's patterns, "mongodb" only in the
scorer's list) and different matching rules (whole-word with title-cased
output vs. lowercase substring), and their extractions disagree on some
inputs, e.g. "swift". -/
theorem C2_amended_vocabularies_differ :
    (strL "swift") ∈ skill_patterns.flatten ∧
    (strL "swift") ∉ tech_skills_scorer ∧
    (strL "mongodb") ∈ tech_skills_scorer ∧
    (strL "mongodb") ∉ skill_patterns.flatten ∧
    extract_skills_pattern_pass (strL "swift") = [strL "Swift"] ∧
    extract_skills_from_text (strL "swift") = [] := by decide

/-! ## Claim C3 -/

/-- The grammar sub-score exactly as claim C3 states it: start at 10, deduct
0.5 per lowercase free-standing "i " token (that deduction capped at 5),
additionally deduct a flat 1 when both a past-tense and a present-tense
action-verb sample appear, floor at 0.  Stated from the claim's words, for
comparison with the source-derived `calculate_grammar_score`. -/
def grammarScoreClaimed (text : List Char) : ℚ :=
  let iDeduction := pymin ((countBWordWs (strL "i") none text : ℚ) * (1 / 2)) 5
  let tensePenalty : ℚ :=
    if 0 < (scanWB past_tense_sample none (toLowerL text)).length &&
        0 < (scanWB present_tense_sample none (toLowerL text)).length then 1 else 0
  pymax (10 - iDeduction - tensePenalty) 0

theorem pymax_floor_redundant (k : ℕ) :
    pymax (10 - pymin ((k : ℚ) * (1 / 2)) 5) 0 = 10 - pymin ((k : ℚ) * (1 / 2)) 5 := by
  rw [pymax_eq_max, pymin_eq_min]
  apply max_eq_left
  have := min_le_right ((k : ℚ) * (1 / 2)) 5
  linarith

/-- Claim C3 (counterexample): on the text "their x" the source deducts 0.5
for the `\btheir\s` pattern (grammar 9.5), while the claim's formula — which
admits no deduction other than the "i " tokens and the tense penalty — gives
10. -/
theorem C3_their_changes_grammar :
    calculate_grammar_score (strL "their x") = 19 / 2 ∧
    grammarScoreClaimed (strL "their x") = 10 ∧
    calculate_grammar_score (strL "their x") ≠ grammarScoreClaimed (strL "their x") := by
  have h1 : calculate_grammar_score (strL "their x") = 19 / 2 := by
    unfold calculate_grammar_score
    dsimp only
    have e1 : countBWordWs (strL "i") none (toLowerL (strL "their x")) = 0 := rfl
    have e2 : countBWordWs (strL "their") none (toLowerL (strL "their x")) = 1 := rfl
    have e3 : (scanWB past_tense_sample none (toLowerL (strL "their x"))).length = 0 := rfl
    rw [e1, e2, e3]
    norm_num [pymin_eq_min, pymax_eq_max]
  have h2 : grammarScoreClaimed (strL "their x") = 10 := by
    unfold grammarScoreClaimed
    dsimp only
    have e1 : countBWordWs (strL "i") none (strL "their x") = 0 := rfl
    have e3 : (scanWB past_tense_sample none (toLowerL (strL "their x"))).length = 0 := rfl
    rw [e1, e3]
    norm_num [pymin_eq_min, pymax_eq_max]
  refine ⟨h1, h2, ?_⟩
  rw [h1, h2]
  norm_num

/-- Claim C3 (amended): the grammar sub-score equals 10 minus
`min(0.5 · (i-tokens + their-tokens + tense-flag), 5)`, where the two token
counts are taken on the lowercased text (so a capitalized "I " also counts),
the `\btheir\s` pattern deducts like the "i " pattern, and the tense-mixing
flag contributes 0.5 inside the same capped deduction rather than a flat 1;
the deduction never exceeds 5, so the floor at 0 is never reached. -/
theorem C3_grammar_amended (text : List Char) :
    calculate_grammar_score text =
      10 - pymin (((countBWordWs (strL "i") none (toLowerL text) +
        countBWordWs (strL "their") none (toLowerL text) +
        (if 0 < (scanWB past_tense_sample none (toLowerL text)).length ∧
            0 < (scanWB present_tense_sample none (toLowerL text)).length
          then 1 else 0) : ℕ) : ℚ) * (1 / 2)) 5 ∧
    5 ≤ calculate_grammar_score text := by
  constructor
  · unfold calculate_grammar_score
    dsimp only
    by_cases hc : 0 < (scanWB past_tense_sample none (toLowerL text)).length ∧
        0 < (scanWB present_tense_sample none (toLowerL text)).length
    · rw [if_pos (by simp [hc.1, hc.2]), if_pos hc]
      exact pymax_floor_redundant _
    · rw [if_neg (by simpa using hc), if_neg hc]
      exact pymax_floor_redundant _
  · exact (grammar_score_bounds text).1

/-! ## Claim C4 -/

/-- The summary fallback exactly as claim C4 states it: the first three
non-trivial lines (length > 10) of the whole document, joined by newline.
Stated from the claim's words, for comparison with the source-derived
`extract_summary`. -/
def summaryFallbackClaimed (text : List Char) : List Char :=
  joinNl (((splitOnNl text).filter (fun line => 10 < line.length)).take 3)

def c4text : List Char := strL "ab\ncd\nthis is quite a long line\nanother quite long line"

/-- Claim C4 (counterexample): with no summary-header keyword, the source
filters the non-trivial lines out of the first three lines (`lines[:3]`
before the length test), not the first three non-trivial lines of the whole
document: on `c4text` it returns only the third line, while the claim's
fallback returns the two long lines. -/
theorem C4_fallback_takes_then_filters :
    extract_summary c4text = strL "this is quite a long line" ∧
    summaryFallbackClaimed c4text =
      strL "this is quite a long line\nanother quite long line" ∧
    extract_summary c4text ≠ summaryFallbackClaimed c4text := by decide

/-- Claim C4 (amended): when no summary-header keyword (summary, objective,
profile) occurs in the lowercased document, the extracted summary equals the
lines among the **first three** lines of the document whose **stripped**
length exceeds 10, joined by newline. -/
theorem C4_fallback_amended (text : List Char)
    (h : ∀ kw ∈ summary_keywords, firstIdxOfSub kw (toLowerL text) = none) :
    extract_summary text =
      joinNl (((splitOnNl text).take 3).filter (fun line => 10 < (stripL line).length)) := by
  unfold extract_summary
  dsimp only
  have hnone : summary_keywords.findSome?
      (fun kw => (firstIdxOfSub kw (toLowerL text)).map (fun i => (kw, i))) = none := by
    rw [List.findSome?_eq_none_iff]
    intro kw hkw
    rw [h kw hkw]
    rfl
  rw [hnone]

/-- Witness for `C4_fallback_amended` at the concrete document `c4text`
(whose lowercase form contains none of the three header keywords). -/
theorem C4_fallback_amended_witness :
    (∀ kw ∈ summary_keywords, firstIdxOfSub kw (toLowerL c4text) = none) ∧
    extract_summary c4text =
      joinNl (((splitOnNl c4text).take 3).filter (fun line => 10 < (stripL line).length)) :=
  ⟨by decide, C4_fallback_amended c4text (by decide)⟩

/-! ## Claim C5 -/

/-- Claim C5 (counterexample): `_improve_bullet_point` applied to
"responsible for managing a team" does not return the claimed string — the
weak-phrase removal leaves the space that followed "responsible for", and
prepending "Managed " yields a double space. -/
theorem C5_claimed_output_wrong :
    improve_bullet_point (strL "responsible for managing a team") ≠
      strL "Managed managing a team - consider adding quantifiable results" := by decide

/-- Claim C5 (amended): the transform returns the claimed string except with
two spaces after "Managed": removing "responsible for" leaves
" managing a team" and the default verb is prepended as `"Managed " + rest`. -/
theorem C5_exact_output :
    improve_bullet_point (strL "responsible for managing a team") =
      strL "Managed  managing a team - consider adding quantifiable results" := by decide

/-! ## Claim C7 -/

/-- Two adjacent whitespace characters somewhere in the list. -/
def hasWsRun : List Char → Bool
  | c :: d :: rest => (isSpaceC c && isSpaceC d) || hasWsRun (d :: rest)
  | _ => false

/-- Claim C7 (counterexample): `clean_text` strips non-whitelist characters
**after** collapsing whitespace, so removing "@" from "a @ b" leaves the
double space "a  b" — the no-whitespace-run property fails. -/
theorem C7_whitespace_run_reappears :
    clean_text (strL "a @ b") = strL "a  b" ∧
    hasWsRun (clean_text (strL "a @ b")) = true := by decide

theorem mem_collapseWs {c : Char} :
    ∀ (l : List Char) (b : Bool), c ∈ collapseWsAux l b → isSpaceC c = true → c = ' ' := by
  intro l
  induction l with
  | nil => intro b h; simp [collapseWsAux] at h
  | cons a r ih =>
    intro b h hsp
    unfold collapseWsAux at h
    by_cases ha : isSpaceC a
    · rw [if_pos ha] at h
      by_cases hb : b
      · rw [if_pos hb] at h
        exact ih true h hsp
      · rw [if_neg hb] at h
        rcases List.mem_cons.mp h with hc | hc
        · exact hc
        · exact ih true hc hsp
    · rw [if_neg ha] at h
      rcases List.mem_cons.mp h with hc | hc
      · rw [hc] at hsp; exact absurd hsp (by simpa using ha)
      · exact ih false hc hsp

theorem head?_dropWhile_false {p : α → Bool} {l : List α} {c : α}
    (h : (l.dropWhile p).head? = some c) : p c = false := by
  have := List.head?_dropWhile_not p l
  rw [h] at this
  exact this

theorem getLast?_dropWhile_of_some {p : α → Bool} :
    ∀ {l : List α} {c : α}, (l.dropWhile p).getLast? = some c → l.getLast? = some c := by
  intro l
  induction l with
  | nil => intro c h; simp [List.dropWhile] at h
  | cons a r ih =>
    intro c h
    rw [List.dropWhile_cons] at h
    by_cases ha : p a
    · rw [if_pos ha] at h
      have hr := ih h
      have hne : r ≠ [] := by
        intro he
        rw [he] at hr
        simp at hr
      rcases List.exists_cons_of_ne_nil hne with ⟨b, t, rfl⟩
      rw [List.getLast?_cons_cons]
      exact hr
    · rw [if_neg ha] at h
      exact h

theorem mem_stripL {c : Char} {l : List Char} (h : c ∈ stripL l) : c ∈ l := by
  unfold stripL at h
  rw [List.mem_reverse] at h
  have h1 := (List.dropWhile_sublist isSpaceC).subset h
  rw [List.mem_reverse] at h1
  exact (List.dropWhile_sublist isSpaceC).subset h1

theorem stripL_head_not_space {l : List Char} {c : Char}
    (h : (stripL l).head? = some c) : isSpaceC c = false := by
  unfold stripL at h
  rw [List.head?_reverse] at h
  have h2 := getLast?_dropWhile_of_some h
  rw [List.getLast?_reverse] at h2
  exact head?_dropWhile_false h2

theorem stripL_getLast_not_space {l : List Char} {c : Char}
    (h : (stripL l).getLast? = some c) : isSpaceC c = false := by
  unfold stripL at h
  rw [List.getLast?_reverse] at h
  exact head?_dropWhile_false h

/-- Claim C7 (amended): every character of `clean_text t` is in the whitelist,
the result has no leading or trailing whitespace, and every whitespace
character in it is a plain space — but runs of several spaces can remain
(see `C7_whitespace_run_reappears`), because the non-whitelist characters are
removed after the whitespace collapse. -/
theorem C7_clean_text_amended (text : List Char) :
    (∀ c ∈ clean_text text, keepC c = true) ∧
    (∀ c ∈ clean_text text, isSpaceC c = true → c = ' ') ∧
    (∀ c, (clean_text text).head? = some c → isSpaceC c = false) ∧
    (∀ c, (clean_text text).getLast? = some c → isSpaceC c = false) := by
  refine ⟨?_, ?_, ?_, ?_⟩
  · intro c hc
    have h1 := mem_stripL hc
    exact (List.mem_filter.mp h1).2
  · intro c hc hsp
    have h1 := mem_stripL hc
    have h2 := (List.mem_filter.mp h1).1
    exact mem_collapseWs text false h2 hsp
  · intro c hc
    exact stripL_head_not_space hc
  · intro c hc
    exact stripL_getLast_not_space hc

/-! ## Claim C6 -/

theorem tech_skills_scorer_nodup : tech_skills_scorer.Nodup := by decide

theorem extract_skills_nodup (jd : List Char) : (extract_skills_from_text jd).Nodup :=
  List.Nodup.filter _ tech_skills_scorer_nodup

/-- Claim C6: with a non-empty job description, the skills-match sub-score is
`min(|lowercased skills ∩ jd_skills| / |jd_skills| · 40, 40)` (as sets), is 0
when `jd_skills` is empty, and on job description "python aws docker" with
skills ["Python"] the reported (rounded) value is 13.3. -/
theorem C6_skills_match_formula (skills : List (List Char)) (jd : List Char)
    (h : jd ≠ []) :
    (extract_skills_from_text jd = [] → calculate_skills_match skills jd = 0) ∧
    (extract_skills_from_text jd ≠ [] →
      calculate_skills_match skills jd =
        pymin (((((skills.map toLowerL).toFinset ∩
            (extract_skills_from_text jd).toFinset).card : ℚ) /
          ((extract_skills_from_text jd).toFinset.card : ℚ)) * 40) 40) ∧
    pythonRound1 (calculate_skills_match [strL "Python"] (strL "python aws docker")) =
      133 / 10 := by
  have hne : ¬ (jd.isEmpty = true) := by simpa [List.isEmpty_iff] using h
  refine ⟨?_, ?_, ?_⟩
  · intro hjs
    unfold calculate_skills_match
    dsimp only
    rw [if_neg hne, if_pos (by simp [hjs])]
  · intro hjs
    unfold calculate_skills_match
    dsimp only
    rw [if_neg hne, if_neg (by simpa [List.isEmpty_iff] using hjs)]
    have hcard_js : (extract_skills_from_text jd).toFinset.card =
        (extract_skills_from_text jd).length := by
      rw [List.card_toFinset, (extract_skills_nodup jd).dedup]
    have hmatched : ((skills.map toLowerL).dedup.filter
        (fun s => (extract_skills_from_text jd).contains s)).toFinset =
        (skills.map toLowerL).toFinset ∩ (extract_skills_from_text jd).toFinset := by
      ext x
      simp [List.mem_filter, List.mem_dedup]
    have hnd : ((skills.map toLowerL).dedup.filter
        (fun s => (extract_skills_from_text jd).contains s)).Nodup :=
      List.Nodup.filter _ (List.nodup_dedup _)
    have hcard_m : ((skills.map toLowerL).toFinset ∩
        (extract_skills_from_text jd).toFinset).card =
        ((skills.map toLowerL).dedup.filter
          (fun s => (extract_skills_from_text jd).contains s)).length := by
      rw [← hmatched, List.card_toFinset, hnd.dedup]
    rw [hcard_m, hcard_js]
  · have hjs : extract_skills_from_text (strL "python aws docker") =
        [strL "python", strL "aws", strL "docker"] := by decide
    have hv : calculate_skills_match [strL "Python"] (strL "python aws docker") = 40 / 3 := by
      unfold calculate_skills_match
      dsimp only
      rw [if_neg (by decide), if_neg (by decide)]
      have hm : (([strL "Python"].map toLowerL).dedup.filter
          (fun s => (extract_skills_from_text (strL "python aws docker")).contains s)).length
          = 1 := by decide
      have hl : (extract_skills_from_text (strL "python aws docker")).length = 3 := by decide
      rw [hm, hl, pymin_eq_min]
      rw [min_eq_left (by norm_num)]
      norm_num
    rw [hv]
    unfold pythonRound1 roundHE
    rw [ratFloor_eq_floor]
    have h10 : (40 : ℚ) / 3 * 10 = 400 / 3 := by norm_num
    rw [h10]
    have hf : ⌊(400 / 3 : ℚ)⌋ = 133 := by norm_num [Int.floor_eq_iff]
    rw [hf, if_pos (by norm_num)]
    norm_num

/-- Witness for `C6_skills_match_formula` at the end-to-end scenario of the
spec: job description "python aws docker", skills ["Python"]. -/
theorem C6_skills_match_witness :
    (strL "python aws docker") ≠ [] ∧
    pythonRound1 (calculate_skills_match [strL "Python"] (strL "python aws docker")) =
      133 / 10 :=
  ⟨by decide, (C6_skills_match_formula [strL "Python"] (strL "python aws docker")
    (by decide)).2.2⟩

/-! ## Claim C8 -/

theorem qdiv_ok {a b : ℚ} (h : b ≠ 0) : qdiv a b = Except.ok (a / b) := by
  unfold qdiv
  rw [if_neg h]

theorem calculate_skills_matchE_ok (skills : List (List Char)) (jd : List Char) :
    calculate_skills_matchE skills jd = Except.ok (calculate_skills_match skills jd) := by
  unfold calculate_skills_matchE calculate_skills_match
  dsimp only
  by_cases h1 : jd.isEmpty
  · rw [if_pos h1, if_pos h1]
  · rw [if_neg h1, if_neg h1]
    by_cases h2 : (extract_skills_from_text jd).isEmpty
    · rw [if_pos h2, if_pos h2]
    · rw [if_neg h2, if_neg h2]
      have hne : extract_skills_from_text jd ≠ [] := by
        simpa [List.isEmpty_iff] using h2
      have hz : ((extract_skills_from_text jd).length : ℚ) ≠ 0 :=
        Nat.cast_ne_zero.mpr (fun h0 => hne (List.length_eq_zero.mp h0))
      rw [qdiv_ok hz]
      rfl

theorem calculate_keywords_scoreE_ok (text : List Char) :
    calculate_keywords_scoreE text = Except.ok (calculate_keywords_score text) := by
  unfold calculate_keywords_scoreE calculate_keywords_score
  dsimp only
  have hz : ((action_verbs_sample.length : ℕ) : ℚ) ≠ 0 := by
    have h6 : action_verbs_sample.length = 6 := rfl
    rw [h6]
    norm_num
  rw [qdiv_ok hz]
  rfl

theorem calculate_formatting_scoreE_ok (text : List Char) :
    calculate_formatting_scoreE text = Except.ok (calculate_formatting_score text) := by
  unfold calculate_formatting_scoreE calculate_formatting_score
  dsimp only
  have hz : (((max ((splitOnNl text).filter
      (fun l => 10 < (stripL l).length)).length 1 : ℕ)) : ℚ) ≠ 0 := by
    have h1 : 1 ≤ max ((splitOnNl text).filter
        (fun l => 10 < (stripL l).length)).length 1 := Nat.le_max_right _ 1
    exact Nat.cast_ne_zero.mpr (by omega)
  rw [qdiv_ok hz]
  rfl

theorem calculate_readability_scoreE_ok (text : List Char) :
    calculate_readability_scoreE text = Except.ok (calculate_readability_score text) := by
  unfold calculate_readability_scoreE calculate_readability_score
  dsimp only
  by_cases h : ((splitSentL text).length = 0 || (splitWsL text).length = 0) = true
  · rw [if_pos h, if_pos h]
  · rw [if_neg h, if_neg h]
    have hs : (splitSentL text).length ≠ 0 := by
      intro h0
      exact h (by simp [h0])
    have hz : (((splitSentL text).length : ℕ) : ℚ) ≠ 0 := Nat.cast_ne_zero.mpr hs
    rw [qdiv_ok hz]
    rfl

theorem get_formatting_detailsE_ok (text : List Char) :
    get_formatting_detailsE text = Except.ok (get_formatting_details text) := by
  unfold get_formatting_detailsE get_formatting_details
  dsimp only
  have hz : (((max ((splitOnNl text).filter
      (fun l => 10 < (stripL l).length)).length 1 : ℕ)) : ℚ) ≠ 0 := by
    have h1 : 1 ≤ max ((splitOnNl text).filter
        (fun l => 10 < (stripL l).length)).length 1 := Nat.le_max_right _ 1
    exact Nat.cast_ne_zero.mpr (by omega)
  rw [qdiv_ok hz]
  rfl

theorem get_readability_detailsE_ok (text : List Char) :
    get_readability_detailsE text = Except.ok (get_readability_details text) := by
  unfold get_readability_detailsE get_readability_details
  dsimp only
  by_cases h : (splitSentL text).length = 0
  · rw [if_pos h, if_pos h]
  · rw [if_neg h, if_neg h]
    have hz : (((splitSentL text).length : ℕ) : ℚ) ≠ 0 := Nat.cast_ne_zero.mpr h
    rw [qdiv_ok hz]
    rfl

theorem calculate_scoreE_ok (p : ResumeProfile) (jd : List Char) :
    calculate_scoreE p jd = Except.ok (calculate_score p.skills p.raw_text jd) := by
  unfold calculate_scoreE calculate_score
  dsimp only
  by_cases h : (!jd.isEmpty) = true
  · rw [if_pos h, if_pos h]
    simp only [calculate_skills_matchE_ok, calculate_keywords_scoreE_ok,
      calculate_formatting_scoreE_ok, calculate_readability_scoreE_ok,
      get_formatting_detailsE_ok, get_readability_detailsE_ok]
    rfl
  · rw [if_neg h, if_neg h]
    simp only [calculate_keywords_scoreE_ok, calculate_formatting_scoreE_ok,
      calculate_readability_scoreE_ok, get_formatting_detailsE_ok,
      get_readability_detailsE_ok]
    rfl

theorem except_bind_ok {e a b : Type} (x : a) (f : a → Except e b) :
    (Except.ok x : Except e a) >>= f = f x := rfl

theorem optimize_summaryE_ok (summary jd : List Char) :
    optimize_summaryE summary jd = Except.ok (optimize_summary summary jd) := by
  unfold optimize_summaryE optimize_summary
  dsimp only
  by_cases h1 : summary.isEmpty
  · rw [if_pos h1, if_pos h1]
  · rw [if_neg h1, if_neg h1]
    have hsn : summary ≠ [] := by simpa [List.isEmpty_iff] using h1
    obtain ⟨c, cs, rfl⟩ := List.exists_cons_of_ne_nil hsn
    cases hsp : splitWsL (c :: cs) with
    | nil =>
      have hAcc : (action_verbs.map toLowerL).contains ([] : List Char) = false := by decide
      simp only [List.isEmpty_nil, Bool.not_true, Bool.false_eq_true, if_false,
        except_bind_ok, hAcc, if_true]
      rfl
    | cons w ws =>
      by_cases h3 : (action_verbs.map toLowerL).contains (toLowerL w) = true
      · simp only [List.isEmpty_cons, Bool.not_false, if_true, headE, Except.map,
          except_bind_ok, h3]
        rfl
      · rw [Bool.not_eq_true] at h3
        simp only [List.isEmpty_cons, Bool.not_false, if_true, headE, Except.map,
          except_bind_ok, h3]
        rfl

theorem optimize_resumeE_ok (p : ResumeProfile) (jd region : List Char) :
    optimize_resumeE p jd region = Except.ok (optimize_resume p jd region) := by
  unfold optimize_resumeE optimize_resume
  dsimp only
  rw [optimize_summaryE_ok]
  rfl

/-- Claim C8: for every profile value (including degenerate empty ones) and
every job description and region, the scoring, suggestion and optimization
operations succeed: the checked mirrors — in which every division and every
`[0]` access is routed through a fallible operation exactly where the Python
could raise — return `Except.ok` of the value-level results, for all inputs. -/
theorem C8_core_operations_total (p : ResumeProfile) (jd region : List Char) :
    calculate_scoreE p jd = Except.ok (calculate_score p.skills p.raw_text jd) ∧
    get_suggestionsE p jd = Except.ok (get_suggestions p jd) ∧
    optimize_resumeE p jd region = Except.ok (optimize_resume p jd region) :=
  ⟨calculate_scoreE_ok p jd, rfl, optimize_resumeE_ok p jd region⟩

/-! ## Claim C9 -/

/-- Source: `h2` extends `h`: all cells of `h` still hold the same values at the same
addresses (new cells may have been appended, and only they may have been
mutated). -/
def HeapLe (h h2 : Heap) : Prop :=
  h.lists.length ≤ h2.lists.length ∧ h.dicts.length ≤ h2.dicts.length ∧
  h2.lists.take h.lists.length = h.lists ∧ h2.dicts.take h.dicts.length = h.dicts

theorem heapLe_refl (h : Heap) : HeapLe h h :=
  ⟨le_refl _, le_refl _, List.take_length _, List.take_length _⟩

theorem take_of_take_eq {α : Type} {l l2 : List α} {n m : ℕ} (hnm : n ≤ m)
    (h : l2.take m = l) : l2.take n = l.take n := by
  rw [← h, List.take_take, min_eq_left hnm]

theorem heapLe_trans {h1 h2 h3 : Heap} (a : HeapLe h1 h2) (b : HeapLe h2 h3) :
    HeapLe h1 h3 := by
  obtain ⟨al1, al2, al3, al4⟩ := a
  obtain ⟨bl1, bl2, bl3, bl4⟩ := b
  refine ⟨le_trans al1 bl1, le_trans al2 bl2, ?_, ?_⟩
  · rw [take_of_take_eq al1 bl3, al3]
  · rw [take_of_take_eq al2 bl4, al4]

theorem take_append_one {α : Type} (l : List α) (x : α) :
    (l ++ [x]).take l.length = l := by
  rw [List.take_append_of_le_length (le_refl _), List.take_length]

theorem heapLe_allocList (h : Heap) (xs : List PyVal) : HeapLe h (h.allocList xs).2 := by
  unfold Heap.allocList
  exact ⟨by simp, le_refl _, take_append_one _ _, List.take_length _⟩

theorem heapLe_allocDict (h : Heap) (es : List (List Char × PyVal)) :
    HeapLe h (h.allocDict es).2 := by
  unfold Heap.allocDict
  exact ⟨le_refl _, by simp, List.take_length _, take_append_one _ _⟩

theorem take_set_of_le {α : Type} (x : α) :
    ∀ (l : List α) (a n : ℕ), n ≤ a → (l.set a x).take n = l.take n := by
  intro l
  induction l with
  | nil => intro a n _; simp
  | cons c r ih =>
    intro a n h
    cases n with
    | zero => simp
    | succ n =>
      cases a with
      | zero => omega
      | succ a =>
        simp only [List.set_cons_succ, List.take_succ_cons]
        rw [ih a n (by omega)]

theorem heapLe_setKey {h0 h : Heap} {a : ℕ} (k : List Char) (v : PyVal)
    (hle : HeapLe h0 h) (ha : h0.dicts.length ≤ a) : HeapLe h0 (h.setKey a k v) := by
  obtain ⟨l1, l2, l3, l4⟩ := hle
  unfold Heap.setKey
  refine ⟨l1, ?_, l3, ?_⟩
  · simpa using l2
  · rw [take_set_of_le _ _ _ _ ha, l4]

theorem heapLe_setListCell {h0 h : Heap} {a : ℕ} (xs : List PyVal)
    (hle : HeapLe h0 h) (ha : h0.lists.length ≤ a) : HeapLe h0 (h.setListCell a xs) := by
  obtain ⟨l1, l2, l3, l4⟩ := hle
  unfold Heap.setListCell
  refine ⟨?_, l2, ?_, l4⟩
  · simpa using l1
  · rw [take_set_of_le _ _ _ _ ha, l3]

theorem heapLe_enhance_skillsH {h0 h : Heap} (skills : List (List Char))
    (jd : List Char) (hle : HeapLe h0 h) : HeapLe h0 (enhance_skillsH h skills jd).2 := by
  unfold enhance_skillsH
  dsimp only
  refine heapLe_trans ?_ (heapLe_allocList _ _)
  by_cases hjd : (!jd.isEmpty) = true
  · rw [if_pos hjd]
    refine heapLe_setListCell _ (heapLe_trans hle (heapLe_allocList _ _)) ?_
    exact hle.1
  · rw [if_neg hjd]
    exact heapLe_trans hle (heapLe_allocList _ _)

theorem heapLe_optimize_experienceH :
    ∀ (jobs : List PyVal) {h0 h : Heap}, HeapLe h0 h →
      HeapLe h0 (optimize_experienceH h jobs).2 := by
  intro jobs
  induction jobs with
  | nil => intro h0 h hle; exact hle
  | cons job rest ih =>
    intro h0 h hle
    cases job with
    | vDict j =>
      unfold optimize_experienceH
      dsimp only
      apply ih
      refine heapLe_setKey _ _ ?_ hle.2.1
      exact heapLe_trans (heapLe_trans hle (heapLe_allocDict _ _)) (heapLe_allocList _ _)
    | vStr s =>
      unfold optimize_experienceH
      dsimp only
      exact ih hle
    | vList a =>
      unfold optimize_experienceH
      dsimp only
      exact ih hle

theorem optimize_resumeH_heapLe (h : Heap) (p : ℕ) (jd region : List Char) :
    HeapLe h (optimize_resumeH h p jd region).2 ∧
    (optimize_resumeH h p jd region).1 = h.dicts.length := by
  unfold optimize_resumeH
  dsimp only
  refine ⟨?_, rfl⟩
  refine heapLe_setKey _ _ ?_ (le_refl _)
  refine heapLe_trans ?_ (heapLe_allocDict _ _)
  refine heapLe_setKey _ _ ?_ (le_refl _)
  refine heapLe_enhance_skillsH _ _ ?_
  refine heapLe_setKey _ _ ?_ (le_refl _)
  refine heapLe_trans ?_ (heapLe_allocList _ _)
  refine heapLe_optimize_experienceH _ ?_
  refine heapLe_setKey _ _ ?_ (le_refl _)
  exact heapLe_allocDict _ _

theorem getD_of_take_eq {α : Type} {l l2 : List α} {n p : ℕ} (d : α)
    (ht : l2.take n = l) (hp : p < n) : l2.getD p d = l.getD p d := by
  rw [← ht, List.getD_eq_getElem?_getD, List.getD_eq_getElem?_getD,
    List.getElem?_take_of_lt hp]

/-- Claim C9: `optimize_resume` at heap level never mutates a pre-existing
heap cell: every list and dict cell of the input heap — in particular the
input profile dict and all the job dicts, description lists and field lists
it references — is unchanged in the result heap, and the returned profile is
a fresh dict, distinct from the input one. -/
theorem C9_optimize_does_not_mutate (h : Heap) (p : ℕ) (jd region : List Char)
    (hp : p < h.dicts.length) :
    (optimize_resumeH h p jd region).2.lists.take h.lists.length = h.lists ∧
    (optimize_resumeH h p jd region).2.dicts.take h.dicts.length = h.dicts ∧
    (optimize_resumeH h p jd region).1 ≠ p ∧
    (optimize_resumeH h p jd region).2.getDict p = h.getDict p := by
  obtain ⟨hle, haddr⟩ := optimize_resumeH_heapLe h p jd region
  refine ⟨hle.2.2.1, hle.2.2.2, ?_, ?_⟩
  · rw [haddr]
    omega
  · unfold Heap.getDict
    exact getD_of_take_eq _ hle.2.2.2 hp

/-- A concrete heap holding a parsed profile at dict address 0: skills list
at list address 0, one job dict (address 1) whose description list is list
address 1, and the experience list at list address 2. -/
def exampleHeap : Heap :=
  { lists :=
      [ [PyVal.vStr (strL "Python")],
        [PyVal.vStr (strL "responsible for managing a team")],
        [PyVal.vDict 1] ],
    dicts :=
      [ [ (strL "summary", PyVal.vStr (strL "great dev")),
          (strL "skills", PyVal.vList 0),
          (strL "experience", PyVal.vList 2) ],
        [ (strL "title", PyVal.vStr (strL "Senior Engineer")),
          (strL "description", PyVal.vList 1) ] ] }

/-- Witness for `C9_optimize_does_not_mutate` on `exampleHeap`. -/
theorem C9_optimize_does_not_mutate_witness :
    0 < exampleHeap.dicts.length ∧
    (optimize_resumeH exampleHeap 0 (strL "python java") (strL "UK")).2.dicts.take
      exampleHeap.dicts.length = exampleHeap.dicts ∧
    (optimize_resumeH exampleHeap 0 (strL "python java") (strL "UK")).1 ≠ 0 :=
  ⟨by decide,
   (C9_optimize_does_not_mutate exampleHeap 0 (strL "python java") (strL "UK")
     (by decide)).2.1,
   (C9_optimize_does_not_mutate exampleHeap 0 (strL "python java") (strL "UK")
     (by decide)).2.2.1⟩

end AIF
